import Mathlib

/-!
# Verification of the nCore addon's torrent-resolution core

Shallow embedding of the addon's bencode decoder / torrent-metadata
extractor (ncore-client), the TorBox file selector and resolution
orchestrator (torbox-client variants), and the HTTP app's resolved-URL
cache, together with proofs of the specification claims about them.

JavaScript values are modelled explicitly: absent/null object fields are
`Option` fields, JS numbers that can be `NaN` are `JsNum`, byte buffers
are `List Nat`, and the regular-expression tests used by the selector are
evaluated by a small executable backtracking matcher (`Rx`).
-/

/-- A JavaScript number that may be `NaN`.  Fractional values do not occur
in the modelled code paths, so the numeric case carries an `Int`. -/
inductive JsNum
  | nan
  | num (v : Int)
  deriving DecidableEq, Repr

/-- `Number(x) || d` for a JS number `x`: `NaN` and `0` are falsy. -/
def JsNum.orDefault (x : JsNum) (d : Int) : Int :=
  match x with
  | .nan => d
  | .num v => if v = 0 then d else v

/-- First string in the list that is present and non-empty (the JS `||`
chain over possibly-missing string fields), else `""`. -/
def firstNonempty : List (Option String) → String
  | [] => ""
  | none :: rest => firstNonempty rest
  | some s :: rest => if s = "" then firstNonempty rest else s

/-- First string in the list that is present (the JS `??` chain, which
keeps empty strings), else `""`. -/
def firstPresent : List (Option String) → String
  | [] => ""
  | none :: rest => firstPresent rest
  | some s :: _ => s

/-- Does `needle` occur as a contiguous run inside `hay`? -/
def containsChars (hay needle : List Char) : Bool :=
  needle.isPrefixOf hay ||
    match hay with
    | [] => false
    | _ :: rest => containsChars rest needle

/-- `hay.includes(needle)` on JS strings. -/
def containsStr (hay needle : String) : Bool :=
  containsChars hay.toList needle.toList

/-- JS truthiness of a possibly-missing nonnegative integer
(`undefined`/`null` and `0` are falsy). -/
def truthyNat : Option Nat → Bool
  | none => false
  | some n => n != 0

/-- `Array.from(new Set(xs))`: deduplication keeping the first occurrence
of each element, in order (`seen` accumulates the elements already
emitted). -/
def dedupKeepFirstGo {α : Type} [DecidableEq α] (seen : List α) : List α → List α
  | [] => []
  | a :: rest =>
    if a ∈ seen then dedupKeepFirstGo seen rest
    else a :: dedupKeepFirstGo (a :: seen) rest

def dedupKeepFirst {α : Type} [DecidableEq α] (l : List α) : List α :=
  dedupKeepFirstGo [] l

/-- ASCII byte list of a string (used to build byte buffers and byte
literals for the bencode model). -/
def asciiStr (s : String) : List Nat :=
  s.toList.map Char.toNat

/-! ## A small backtracking matcher for the selector's regexes

The addon tests file names against a handful of concrete regular
expressions.  `Rx` can express exactly the constructs those patterns use:
literals, single-character classes, `*` over a character class, `?`,
alternation and the word-boundary assertion `\b`.  `rtest` implements
JavaScript's `RegExp.test` (a match may start at any position). -/

inductive Rx
  | eps
  | lit (s : List Char)
  | one (p : Char → Bool)
  | many (p : Char → Bool)
  | seq (a b : Rx)
  | alt (a b : Rx)
  | opt (a : Rx)
  | wb

/-- JS `\w`: ASCII letters, digits and underscore. -/
def isWordChar (c : Char) : Bool :=
  c.isAlpha || c.isDigit || c = '_'

/-- Word-boundary test between the previous character (if any) and the
rest of the input. -/
def atWordBoundary (prev : Option Char) (cs : List Char) : Bool :=
  let l := match prev with | none => false | some c => isWordChar c
  let r := match cs with | [] => false | c :: _ => isWordChar c
  l != r

/-- A fuel bound for the matcher: matching `r` against any suffix of `cs`
takes fewer than `rxMeasure r + cs.length + 1` nested calls. -/
def rxMeasure : Rx → Nat
  | .eps => 1
  | .lit s => s.length + 1
  | .one _ => 1
  | .many _ => 1
  | .seq a b => rxMeasure a + rxMeasure b + 1
  | .alt a b => rxMeasure a + rxMeasure b + 1
  | .opt a => rxMeasure a + 1
  | .wb => 1

/-- Backtracking matcher in continuation style, with a structural fuel:
`mrunF fuel r prev cs k` is true iff some way of matching `r` against a
prefix of `cs` makes the continuation `k` succeed on the remainder.
`prev` is the character just before `cs`, for word-boundary tests.
`mrunF_stable` shows the fuel supplied by `mrun` is sufficient. -/
def mrunF : Nat → Rx → Option Char → List Char → (Option Char → List Char → Bool) → Bool
  | 0, _, _, _, _ => false
  | Nat.succ fuel, rx, prev, cs, k =>
    match rx with
    | .eps => k prev cs
    | .lit [] => k prev cs
    | .lit (c :: srest) =>
      match cs with
      | [] => false
      | d :: drest => c = d && mrunF fuel (.lit srest) (some d) drest k
    | .one p =>
      match cs with
      | [] => false
      | d :: drest => p d && k (some d) drest
    | .many p =>
      k prev cs ||
        match cs with
        | [] => false
        | d :: drest => p d && mrunF fuel (.many p) (some d) drest k
    | .seq a b => mrunF fuel a prev cs (fun p r => mrunF fuel b p r k)
    | .alt a b => mrunF fuel a prev cs k || mrunF fuel b prev cs k
    | .opt a => mrunF fuel a prev cs k || k prev cs
    | .wb => atWordBoundary prev cs && k prev cs

/-- The matcher with its sufficient fuel. -/
def mrun (r : Rx) (prev : Option Char) (cs : List Char)
    (k : Option Char → List Char → Bool) : Bool :=
  mrunF (rxMeasure r + cs.length + 1) r prev cs k

/-- Search for a match starting at any position (JS `RegExp.test`). -/
def rsearch (r : Rx) : Option Char → List Char → Bool
  | prev, [] => mrun r prev [] (fun _ _ => true)
  | prev, c :: rest => mrun r prev (c :: rest) (fun _ _ => true) || rsearch r (some c) rest

/-- `new RegExp(pat).test(text)`. -/
def rtest (r : Rx) (text : List Char) : Bool :=
  rsearch r none text

/-- Sequence a list of regex fragments. -/
def rseq : List Rx → Rx
  | [] => .eps
  | [r] => r
  | r :: rest => .seq r (rseq rest)

/-- Alternation of a non-empty list of fragments. -/
def ralt : List Rx → Rx
  | [] => .eps
  | [r] => r
  | r :: rest => .alt r (ralt rest)

/-- JS `\s` (ASCII portion). -/
def wsp (c : Char) : Bool :=
  c = ' ' || c = '\t' || c = '\n' || c = '\r' || c = '\x0b' || c = '\x0c'

/-- The separator class `[._\- ]` used by the episode patterns. -/
def sepCls (c : Char) : Bool :=
  c = '.' || c = '_' || c = '-' || c = ' '

def digitCls (c : Char) : Bool := c.isDigit

def zeroCls (c : Char) : Bool := c = '0'

/-- `String(n)` for a nonnegative JS integer. -/
def jsDigits (n : Nat) : List Char :=
  (Nat.repr n).toList

/-- `String(n).padStart(2, '0')`. -/
def pad2 (n : Nat) : List Char :=
  let d := jsDigits n
  if d.length < 2 then List.replicate (2 - d.length) '0' ++ d else d

/-! ### Structurally-recursive string operations

Kernel-reducible counterparts of `toLowerCase` / `toUpperCase` / `trim` /
`endsWith` (the ASCII behaviour, which is all the modelled code relies
on). -/

def jsToLower (s : String) : String :=
  String.mk (s.toList.map Char.toLower)

def jsToUpper (s : String) : String :=
  String.mk (s.toList.map Char.toUpper)

/-- `s.trim()`. -/
def jsTrim (s : String) : String :=
  String.mk (((s.toList.dropWhile Char.isWhitespace).reverse.dropWhile
    Char.isWhitespace).reverse)

/-- `s.endsWith(post)`. -/
def strEndsWith (s post : String) : Bool :=
  post.toList.isSuffixOf s.toList

/-! ## torbox-client (src/unnamed/part_001)

Embedding of the file selector and resolution orchestrator of the
`resolveTorboxLinkWithWait` torbox-client variant. -/

namespace Torbox

/-- `VIDEO_EXTENSIONS` of part_001. -/
def VIDEO_EXTENSIONS : List String :=
  [".mkv", ".mp4", ".avi", ".mov", ".wmv", ".m4v", ".webm", ".mpg", ".mpeg", ".ts", ".m2ts"]

/-- `isVideoFile(name)`: lowercased name ends with a video extension. -/
def isVideoFile (name : String) : Bool :=
  VIDEO_EXTENSIONS.any (fun ext => strEndsWith (jsToLower name) ext)

/-- The first "direct" episode pattern
`\bs<SS>\s*[._\- ]?e<EE>\b` (season/episode zero-padded to two digits). -/
def epPat1 (season episode : Nat) : Rx :=
  rseq [.wb, .lit ('s' :: pad2 season), .many wsp, .opt (.one sepCls),
        .lit ('e' :: pad2 episode), .wb]

/-- `\b<season>\s*[x]\s*0*<episode>\b`. -/
def epPat2 (season episode : Nat) : Rx :=
  rseq [.wb, .lit (jsDigits season), .many wsp, .lit ['x'], .many wsp,
        .many zeroCls, .lit (jsDigits episode), .wb]

/-- `\bseason\s*0*<season>\s*(?:episode|ep|e)\s*0*<episode>\b`. -/
def epPat3 (season episode : Nat) : Rx :=
  rseq [.wb, .lit "season".toList, .many wsp, .many zeroCls, .lit (jsDigits season),
        .many wsp, ralt [.lit "episode".toList, .lit "ep".toList, .lit "e".toList],
        .many wsp, .many zeroCls, .lit (jsDigits episode), .wb]

/-- The Hungarian pattern
`\b0*<season>\s*[._\- ]*(?:evad|évad)\s*[._\- ]*0*<episode>\s*[._\- ]*(?:resz|rész|epizod|epizód)\b`. -/
def epPat4 (season episode : Nat) : Rx :=
  rseq [.wb, .many zeroCls, .lit (jsDigits season), .many wsp, .many sepCls,
        ralt [.lit "evad".toList, .lit "évad".toList], .many wsp, .many sepCls,
        .many zeroCls, .lit (jsDigits episode), .many wsp, .many sepCls,
        ralt [.lit "resz".toList, .lit "rész".toList, .lit "epizod".toList, .lit "epizód".toList],
        .wb]

/-- First multi-episode range pattern
`\bs<SS>\s*[._\- ]?e<EE>\s*-\s*e?\d{1,2}\b`. -/
def epRange1 (season episode : Nat) : Rx :=
  rseq [.wb, .lit ('s' :: pad2 season), .many wsp, .opt (.one sepCls),
        .lit ('e' :: pad2 episode), .many wsp, .lit ['-'], .many wsp,
        .opt (.lit ['e']), .one digitCls, .opt (.one digitCls), .wb]

/-- `\b<season>\s*[x]\s*0*<episode>\s*-\s*\d{1,2}\b`. -/
def epRange2 (season episode : Nat) : Rx :=
  rseq [.wb, .lit (jsDigits season), .many wsp, .lit ['x'], .many wsp,
        .many zeroCls, .lit (jsDigits episode), .many wsp, .lit ['-'], .many wsp,
        .one digitCls, .opt (.one digitCls), .wb]

/-- `\bs<SS>\s*[._\- ]?e<EE>\s*e\d{1,2}\b`. -/
def epRange3 (season episode : Nat) : Rx :=
  rseq [.wb, .lit ('s' :: pad2 season), .many wsp, .opt (.one sepCls),
        .lit ('e' :: pad2 episode), .many wsp, .lit ['e'],
        .one digitCls, .opt (.one digitCls), .wb]

/-- The `direct` test of `isEpisodeFileMatch`: any of the four
single-episode patterns matches the (lowercased) name. -/
def epDirectTest (text : List Char) (season episode : Nat) : Bool :=
  [epPat1 season episode, epPat2 season episode,
   epPat3 season episode, epPat4 season episode].any (fun r => rtest r text)

/-- The `range` test of `isEpisodeFileMatch`: any of the three
multi-episode range patterns matches. -/
def epRangeTest (text : List Char) (season episode : Nat) : Bool :=
  [epRange1 season episode, epRange2 season episode,
   epRange3 season episode].any (fun r => rtest r text)

/-- `isEpisodeFileMatch(name, season, episode)` (part_001 lines 224-248):
falsy season/episode or an empty name never match; otherwise the name must
match a direct episode pattern and no range pattern. -/
def isEpisodeFileMatch (name : String) (season episode : Nat) : Bool :=
  if season = 0 || episode = 0 then false
  else
    let text := (jsToLower name).toList
    if text.isEmpty then false
    else epDirectTest text season episode && !epRangeTest text season episode

/-- A file object of a TorBox job listing; fields the client reads,
`none` meaning absent/null. -/
structure RawFile where
  id : Option String := none
  file_id : Option String := none
  fileId : Option String := none
  short_name : Option String := none
  name : Option String := none
  filename : Option String := none
  path : Option String := none
  size : Option JsNum := none
  bytes : Option JsNum := none
  size_bytes : Option JsNum := none
  deriving DecidableEq, Repr

/-- `readFileName(file)`: first non-empty of
`short_name || name || filename || path`, else `""`. -/
def readFileName (f : RawFile) : String :=
  firstNonempty [f.short_name, f.name, f.filename, f.path]

/-- `readFileId(file)`: `file.id ?? file.file_id ?? file.fileId`,
stringified; absent means `""`. -/
def readFileId (f : RawFile) : String :=
  ((f.id <|> f.file_id) <|> f.fileId).getD ""

/-- `readFileSize(file)`: `Number(size ?? bytes ?? size_bytes ?? 0)`,
non-finite mapped to 0. -/
def readFileSize (f : RawFile) : Int :=
  match ((f.size <|> f.bytes) <|> f.size_bytes).getD (.num 0) with
  | .nan => 0
  | .num v => v

/-- The `{id, name, size}` projection `chooseFileIdFromTorrent` builds. -/
structure Cand where
  id : String
  name : String
  size : Int
  deriving DecidableEq, Repr

def mkCand (f : RawFile) : Cand :=
  ⟨readFileId f, readFileName f, readFileSize f⟩

/-- Head of the stable descending sort by `size` used by the selector
(`sort((a, b) => b.size - a.size)` followed by `[0]`): the first element
of maximal size. -/
def pickLargest (xs : List Cand) : Option Cand :=
  xs.foldl (fun acc c =>
    match acc with
    | none => some c
    | some b => if c.size > b.size then some c else some b) none

end Torbox

namespace Torbox

/-- Substructure behind the `data` field of create payloads and job rows
(fields the client reads). -/
structure ItemData where
  torrent_id : Option String := none
  torrentId : Option String := none
  id : Option String := none
  queued_id : Option String := none
  queuedId : Option String := none
  files : Option (List RawFile) := none
  deriving DecidableEq, Repr

/-- A TorBox job row / createtorrent payload: exactly the dynamic fields
part_001 reads, `none` meaning absent/null. -/
structure Item where
  torrent_id : Option String := none
  torrentId : Option String := none
  id : Option String := none
  data : Option ItemData := none
  hash : Option String := none
  info_hash : Option String := none
  magnet : Option String := none
  magnet_url : Option String := none
  files : Option (List RawFile) := none
  queued_id : Option String := none
  queuedId : Option String := none
  active : Option Bool := none
  download_finished : Option Bool := none
  downloadFinished : Option Bool := none
  download_present : Option Bool := none
  downloadPresent : Option Bool := none
  download_state : Option String := none
  downloadState : Option String := none
  state : Option String := none
  status : Option String := none
  progress : Option JsNum := none
  download_progress : Option JsNum := none
  downloadProgress : Option JsNum := none
  percent : Option JsNum := none
  deriving DecidableEq, Repr

/-- `pickFileArray(item)`: `item.files` if it is an array, else
`item.data.files`, else `[]`. -/
def pickFileArray (it : Item) : List RawFile :=
  match it.files with
  | some fs => fs
  | none =>
    match it.data.bind (·.files) with
    | some fs => fs
    | none => []

/-- First candidate that is present with a non-blank stringification
(`candidate !== undefined && candidate !== null && String(candidate).trim()`),
returned unchanged; else `""`. -/
def firstTrimNonempty : List (Option String) → String
  | [] => ""
  | none :: rest => firstTrimNonempty rest
  | some s :: rest => if jsTrim s = "" then firstTrimNonempty rest else s

/-- `pickTorrentId(value)` over the candidate fields
`[torrent_id, torrentId, id, data?.torrent_id, data?.id]`. -/
def pickTorrentId (v : Item) : String :=
  firstTrimNonempty
    [v.torrent_id, v.torrentId, v.id, v.data.bind (·.torrent_id), v.data.bind (·.id)]

/-- `pickQueuedId(value)` over `[queued_id, queuedId, data?.queued_id,
data?.queuedId]`. -/
def pickQueuedId (v : Item) : String :=
  firstTrimNonempty
    [v.queued_id, v.queuedId, v.data.bind (·.queued_id), v.data.bind (·.queuedId)]

/-- Episode candidates of the season/episode branch of
`chooseFileIdFromTorrent`: mapped `{id, name, size}` records filtered to
truthy id, video extension and episode match. -/
def episodeMatches (it : Item) (season episode : Nat) : List Cand :=
  ((pickFileArray it).map mkCand).filter
    (fun c => c.id ≠ "" && isVideoFile c.name && isEpisodeFileMatch c.name season episode)

/-- The preferred-name scan of `chooseFileIdFromTorrent` (lines 267-276):
first file, in order, whose lowercased name is non-empty and equals /
ends with / is ended by the preferred name and whose id is truthy. -/
def findPreferred (files : List RawFile) (preferred : String) : Option String :=
  match files with
  | [] => none
  | f :: rest =>
    let n := jsToLower (readFileName f)
    if n ≠ "" && (n = preferred || strEndsWith n preferred || strEndsWith preferred n) then
      let id := readFileId f
      if id ≠ "" then some id else findPreferred rest preferred
    else findPreferred rest preferred

/-- `chooseFileIdFromTorrent(item, preferredName, season, episode)`
(part_001 lines 250-293).  Returns `""` for "no file". -/
def chooseFileIdFromTorrent (it : Item) (preferredName : Option String)
    (season episode : Option Nat) : String :=
  let files := pickFileArray it
  if files.isEmpty then ""
  else if truthyNat season && truthyNat episode then
    match pickLargest (episodeMatches it (season.getD 0) (episode.getD 0)) with
    | some c => c.id
    | none => ""
  else
    let preferred := jsToLower (preferredName.getD "")
    match (if preferred ≠ "" then findPreferred files preferred else none) with
    | some id => id
    | none =>
      let videos := (files.map mkCand).filter (fun c => c.id ≠ "" && isVideoFile c.name)
      match pickLargest videos with
      | some c => c.id
      | none =>
        match files.find? (fun f => readFileId f ≠ "") with
        | some f => readFileId f
        | none => ""

end Torbox

namespace Torbox

/-- An error thrown by a TorBox API call: the fields that
`readTorboxErrorCode` / `isCreateAlreadyExistsError` inspect
(`none` = absent). -/
structure TorboxError where
  message : Option String := none
  respDetail : Option String := none
  respError : Option String := none
  respMessage : Option String := none
  respDataDetail : Option String := none
  respDataError : Option String := none
  respDataMessage : Option String := none
  errField : Option String := none
  deriving DecidableEq, Repr

/-- `readTorboxErrorCode(error)`:
`String(error?.response?.error || error?.response?.data?.error || error?.error || '').trim().toUpperCase()`. -/
def readTorboxErrorCode (e : TorboxError) : String :=
  jsToUpper (jsTrim (firstNonempty [e.respError, e.respDataError, e.errField]))

/-- `isTorboxQueueLimitError(error)`. -/
def isTorboxQueueLimitError (e : TorboxError) : Bool :=
  ["ACTIVE_LIMIT", "COOLDOWN_LIMIT", "MONTHLY_LIMIT"].contains (readTorboxErrorCode e)

/-- `String.intercalate` on already-filtered parts, as in the `join(' | ')`
of `isCreateAlreadyExistsError`. -/
def joinParts (parts : List String) : String :=
  String.intercalate " | " parts

/-- `isCreateAlreadyExistsError(error)` (part_001 lines 159-178): lowercase
the present message/detail fields, drop empties, join with `' | '`, and
look for the substrings `already` / `exist` / `duplicate` / `409`. -/
def isCreateAlreadyExistsError (e : TorboxError) : Bool :=
  let parts := joinParts
    (([e.message, e.respDetail, e.respError, e.respMessage,
       e.respDataDetail, e.respDataError, e.respDataMessage].map
        (fun p => jsToLower (p.getD ""))).filter (· ≠ ""))
  if parts = "" then false
  else containsStr parts "already" || containsStr parts "exist" ||
       containsStr parts "duplicate" || containsStr parts "409"

/-- `extractInfoHash(value)`: first occurrence of the case-insensitive
literal `xt=urn:btih:` followed by exactly 40 hex characters, those 40
characters lowercased; else `""`. -/
def extractInfoHashChars : List Char → String
  | [] => ""
  | c :: rest =>
    let cs := c :: rest
    if "xt=urn:btih:".toList.isPrefixOf (cs.map Char.toLower) then
      let tail40 := (cs.drop 12).take 40
      if tail40.length = 40 && tail40.all (fun d => d.isDigit ||
          ('a' ≤ d && d ≤ 'f') || ('A' ≤ d && d ≤ 'F')) then
        String.mk (tail40.map Char.toLower)
      else extractInfoHashChars rest
    else extractInfoHashChars rest

def extractInfoHash (value : String) : String :=
  extractInfoHashChars value.toList

/-- `readTorboxState(item)`:
`String(download_state ?? downloadState ?? state ?? status ?? '').toLowerCase()`. -/
def readTorboxState (it : Item) : String :=
  jsToLower (firstPresent [it.download_state, it.downloadState, it.state, it.status])

/-- `readTorboxProgress(item)`: `none` models the `null` returned for a
non-finite value, otherwise the value clamped to `[0, 100]`. -/
def readTorboxProgress (it : Item) : Option Int :=
  match (((it.progress <|> it.download_progress) <|> it.downloadProgress) <|> it.percent).getD (.num 0) with
  | .nan => none
  | .num v => some (max 0 (min 100 v))

/-- `isTorboxReady(item)` (part_001 lines 540-548). -/
def isTorboxReady (it : Item) : Bool :=
  if it.download_finished = some true || it.downloadFinished = some true then true
  else if it.download_present = some true || it.downloadPresent = some true then true
  else
    let state := readTorboxState it
    if containsStr state "completed" || containsStr state "complete" ||
       containsStr state "finished" || containsStr state "ready" then true
    else
      match readTorboxProgress it with
      | some p => p ≥ 100
      | none => false

/-- `statusError(item)`: explicit `error` state, or
`active === false && (download_finished ?? downloadFinished) === false`. -/
def statusError (it : Item) : Bool :=
  if readTorboxState it = "error" then true
  else it.active = some false && (it.download_finished <|> it.downloadFinished) = some false

/-- `statusDownloading(item)`: a trim-non-blank `queued_id ?? queuedId`
makes it downloading; else neither ready nor errored. -/
def statusDownloading (it : Item) : Bool :=
  if firstTrimNonempty [it.queued_id, it.queuedId] ≠ "" then true
  else !isTorboxReady it && !statusError it

/-- `findTorrentInList(list, infoHash, torrentId)` (part_001 lines
336-360).  The orchestrator passes the already-extracted array, on which
`getFirstObjectArray` is the identity. -/
def findTorrentInList (list : List Item) (infoHash : String) (torrentId : String) : Option Item :=
  if list.isEmpty then none
  else
    let targetId := jsTrim torrentId
    match (if targetId ≠ "" then list.find? (fun it => pickTorrentId it = targetId) else none) with
    | some it => some it
    | none =>
      let target := jsToLower infoHash
      if target = "" then list.head?
      else
        list.find? (fun it =>
          let hash := jsToLower (firstNonempty [it.hash, it.info_hash])
          (hash ≠ "" && hash = target) ||
            (let mh := extractInfoHash (firstNonempty [it.magnet, it.magnet_url])
             mh ≠ "" && mh = target))

/-- The id `resolveTorboxLinkWithWait` derives from a successful create:
`pickTorrentId(created) || String(created?.data?.torrentId || created?.data?.torrent_id || '')`. -/
def createdTorrentId (created : Item) : String :=
  let p := pickTorrentId created
  if p ≠ "" then p
  else firstNonempty [created.data.bind (·.torrentId), created.data.bind (·.torrent_id)]

end Torbox

namespace Torbox

/-- Remote calls made by `resolveTorboxLinkWithWait`, in order.  A create
call records the `name` argument it was given (`none` = omitted). -/
inductive TbCall
  | create (name : Option String)
  | list
  | link (torrentId fileId : String)
  deriving DecidableEq, Repr

/-- Outcome of a resolution run.  Thrown errors carry the `code` the
source assigns (`err.code = ...`) and, for queue limits, the original
error object. -/
inductive TbOutcome
  | ok (url : String)
  | errQueueLimit (code : String) (e : TorboxError)
  | errDownload
  | errNotReady
  | errInput (msg : String)
  deriving DecidableEq, Repr

/-- The `code` property of the run's result/rejection. -/
def TbOutcome.code : TbOutcome → String
  | .ok _ => ""
  | .errQueueLimit c _ => c
  | .errDownload => "TORBOX_DOWNLOAD_ERROR"
  | .errNotReady => "TORBOX_NOT_READY"
  | .errInput _ => ""

/-- `error.code = readTorboxErrorCode(error) || 'ACTIVE_LIMIT'`. -/
def qlCode (e : TorboxError) : String :=
  let c := readTorboxErrorCode e
  if c = "" then "ACTIVE_LIMIT" else c

/-- Behaviour of the remote TorBox API during one run: the result of the
k-th create call, the rows returned by the k-th `listMyTorrents` call, and
the URL returned by the k-th `requestDownloadLink` call (download-link
calls are modelled as succeeding; no claim concerns their failure). -/
structure TbEnv where
  createResults : Nat → Except TorboxError Item
  listResults : Nat → List Item
  linkResults : Nat → String

/-- Arguments of `resolveTorboxLinkWithWait` (subtitle resolution is not
modelled: every claim concerns `includeSubtitles = false`, the default,
which the HTTP app always passes). -/
structure TbArgs where
  apiKey : String
  magnet : String
  infoHash : String
  fileName : Option String := none
  season : Option Nat := none
  episode : Option Nat := none
  maxWaitMs : Option JsNum := none
  skipCreate : Bool := false

/-- `Math.max(5_000, Number(maxWaitMs) || 600_000)` with the parameter
default `600_000` for a missing argument: the length of the polling
window in milliseconds. -/
def effectiveWait (maxWaitMs : Option JsNum) : Int :=
  max 5000 ((maxWaitMs.getD (.num 600000)).orDefault 600000)

/-- Number of iterations of the `while (Date.now() < deadline)` loop:
time starts at 0, every non-terminating iteration sleeps exactly 2000 ms,
so the loop body runs `⌈deadline / 2000⌉` times before timing out. -/
def tbIterations (deadline : Nat) : Nat :=
  (deadline + 1999) / 2000

/-- Result of the create-once phase: either a thrown queue-limit rejection
(with its trace) or the updated `(torrentId, queuedId, nCreate, trace)`. -/
def tbCreatePhase (env : TbEnv) (fileName : Option String) (nCreate : Nat)
    (trace : List TbCall) :
    Except (String × TorboxError × List TbCall) (String × String × Nat × List TbCall) :=
  let trace1 := TbCall.create fileName :: trace
  match env.createResults nCreate with
  | .ok created => .ok (createdTorrentId created, pickQueuedId created, nCreate + 1, trace1)
  | .error e =>
    if isCreateAlreadyExistsError e then
      -- fine, we will locate by hash from mylist.
      .ok ("", "", nCreate + 1, trace1)
    else if isTorboxQueueLimitError e then
      .error (qlCode e, e, trace1)
    else
      -- retry once without optional name to match TorBox tolerance.
      let trace2 := TbCall.create none :: trace1
      match env.createResults (nCreate + 1) with
      | .ok created => .ok (createdTorrentId created, pickQueuedId created, nCreate + 2, trace2)
      | .error e2 =>
        if isTorboxQueueLimitError e2 then .error (qlCode e2, e2, trace2)
        else .ok ("", "", nCreate + 2, trace2)

/-- The polling loop of `resolveTorboxLinkWithWait` (part_001 lines
625-721).  `iters` counts the remaining loop iterations (see
`tbIterations`); the trace accumulates in reverse and is reversed in every
returned result. -/
def tbLoop (env : TbEnv) (args : TbArgs) (targetHash : String) :
    (iters : Nat) → (torrentId queuedId : String) → (createdAttempted : Bool) →
    (nCreate nList nLink : Nat) → (trace : List TbCall) → TbOutcome × List TbCall
  | 0, _, _, _, _, _, _, trace => (.errNotReady, trace.reverse)
  | Nat.succ iters, torrentId, queuedId, createdAttempted, nCreate, nList, nLink, trace =>
    let phase :=
      if !args.skipCreate && !createdAttempted then
        tbCreatePhase env args.fileName nCreate trace
      else .ok (torrentId, queuedId, nCreate, trace)
    let createdAttempted := createdAttempted || !args.skipCreate
    match phase with
    | .error (code, e, trace') => (.errQueueLimit code e, trace'.reverse)
    | .ok (torrentId, queuedId, nCreate, trace) =>
      let list := env.listResults nList
      let nList := nList + 1
      let trace := TbCall.list :: trace
      match findTorrentInList list targetHash torrentId with
      | none =>
        -- If TorBox only returned a queued id, keep waiting for the real torrent row.
        tbLoop env args targetHash iters torrentId queuedId createdAttempted nCreate nList nLink trace
      | some chosen =>
        let torrentId := if torrentId ≠ "" then torrentId else pickTorrentId chosen
        let files := pickFileArray chosen
        let fileId := chooseFileIdFromTorrent chosen args.fileName args.season args.episode
        if torrentId ≠ "" && fileId ≠ "" then
          let url := env.linkResults nLink
          (.ok url, (TbCall.link torrentId fileId :: trace).reverse)
        else if statusError chosen then
          (.errDownload, trace.reverse)
        else if statusDownloading chosen || queuedId ≠ "" then
          tbLoop env args targetHash iters torrentId queuedId createdAttempted nCreate nList nLink trace
        else if files.isEmpty then
          tbLoop env args targetHash iters torrentId queuedId createdAttempted nCreate nList nLink trace
        else
          tbLoop env args targetHash iters torrentId queuedId createdAttempted nCreate nList nLink trace

/-- The target hash `resolveTorboxLinkWithWait` computes:
`String(infoHash || extractInfoHash(magnet)).toLowerCase()`. -/
def effTargetHash (args : TbArgs) : String :=
  jsToLower (if args.infoHash ≠ "" then args.infoHash else extractInfoHash args.magnet)

/-- `resolveTorboxLinkWithWait` (part_001 lines 604-726), as a function of
the remote behaviour `env`: input validation, then the create/poll loop.
Returns the outcome together with the chronological list of remote calls
performed. -/
def resolveTorboxLinkWithWait (env : TbEnv) (args : TbArgs) : TbOutcome × List TbCall :=
  let targetHash := effTargetHash args
  if args.apiKey = "" then (.errInput "missing TorBox API key", [])
  else if targetHash = "" then (.errInput "missing infoHash", [])
  else if args.magnet = "" then (.errInput "missing magnet", [])
  else
    tbLoop env args targetHash (tbIterations (effectiveWait args.maxWaitMs).toNat)
      "" "" false 0 0 0 []

end Torbox

/-! ## torbox-client variant of src/unnamed/part_002 (`pickFileId`) -/

namespace Torbox2

/-- A file object as read by part_002's `pickFileId` (also reads a
`length` size field). -/
structure RawFile where
  id : Option String := none
  file_id : Option String := none
  fileId : Option String := none
  name : Option String := none
  short_name : Option String := none
  filename : Option String := none
  path : Option String := none
  size : Option JsNum := none
  bytes : Option JsNum := none
  length : Option JsNum := none
  deriving DecidableEq, Repr

structure TorrentData where
  files : Option (List RawFile) := none
  download_files : Option (List RawFile) := none
  deriving DecidableEq, Repr

/-- A torrent row as read by part_002's `getFiles`. -/
structure Torrent where
  files : Option (List RawFile) := none
  download_files : Option (List RawFile) := none
  data : Option TorrentData := none
  deriving DecidableEq, Repr

/-- `getFiles(torrent)`: the first of
`files, download_files, data.files, data.download_files` that is an
array, else `[]`. -/
def getFiles (t : Torrent) : List RawFile :=
  match t.files with
  | some fs => fs
  | none =>
    match t.download_files with
    | some fs => fs
    | none =>
      match t.data.bind (·.files) with
      | some fs => fs
      | none =>
        match t.data.bind (·.download_files) with
        | some fs => fs
        | none => []

/-- `VIDEO_EXTS` of part_002 (same list as part_001). -/
def VIDEO_EXTS : List String := Torbox.VIDEO_EXTENSIONS

/-- The candidate records `pickFileId` builds:
`{id, name, short, size}`. -/
structure Cand where
  id : String
  name : String
  short : String
  size : Int
  deriving DecidableEq, Repr

/-- `Number(size ?? bytes ?? length ?? 0) || 0`. -/
def candSize (f : RawFile) : Int :=
  (((f.size <|> f.bytes) <|> f.length).getD (.num 0)).orDefault 0

def mkCand (f : RawFile) : Cand :=
  { id := ((f.id <|> f.file_id) <|> f.fileId).getD ""
    name := firstNonempty [f.name, f.short_name, f.filename, f.path]
    short := firstNonempty [f.short_name, f.name, f.filename, f.path]
    size := candSize f }

/-- Whether the candidate passes the video filter of `pickFileId`
(`VIDEO_EXTS.some((ext) => f.short.toLowerCase().endsWith(ext))`). -/
def isVideoCand (c : Cand) : Bool :=
  VIDEO_EXTS.any (fun ext => strEndsWith (jsToLower c.short) ext)

/-- The filtered candidate list of `pickFileId`. -/
def videoCands (t : Torrent) : List Cand :=
  ((getFiles t).map mkCand).filter (fun c => c.id ≠ "" && isVideoCand c)

/-- `\bs<SS>\s*[._-]?e<EE>\b` — note: separator class without space. -/
def sxePat (season episode : Nat) : Rx :=
  rseq [.wb, .lit ('s' :: pad2 season), .many wsp,
        .opt (.one (fun c => c = '.' || c = '_' || c = '-')),
        .lit ('e' :: pad2 episode), .wb]

/-- `\b<season>\s*x\s*0*<episode>\b`. -/
def xPat (season episode : Nat) : Rx :=
  rseq [.wb, .lit (jsDigits season), .many wsp, .lit ['x'], .many wsp,
        .many zeroCls, .lit (jsDigits episode), .wb]

/-- `\bs<SS>\s*[._-]?e<EE>\s*[-e]\d+\b`. -/
def rangedPat (season episode : Nat) : Rx :=
  rseq [.wb, .lit ('s' :: pad2 season), .many wsp,
        .opt (.one (fun c => c = '.' || c = '_' || c = '-')),
        .lit ('e' :: pad2 episode), .many wsp,
        .one (fun c => c = '-' || c = 'e'), .one digitCls, .many digitCls, .wb]

/-- The episodic filter of `pickFileId`:
`(sxe || x) && !ranged` on the lowercased name. -/
def isEpisodicName (name : String) (season episode : Nat) : Bool :=
  let n := (jsToLower name).toList
  (rtest (sxePat season episode) n || rtest (xPat season episode) n) &&
    !rtest (rangedPat season episode) n

/-- Head of `sort((a, b) => b.size - a.size)` (first maximal element). -/
def pickLargest (xs : List Cand) : Option Cand :=
  xs.foldl (fun acc c =>
    match acc with
    | none => some c
    | some b => if c.size > b.size then some c else some b) none

/-- The preferred-name predicate of `pickFileId`: lowercased name equals /
ends with / is ended by the wanted name. -/
def prefMatch (wanted : String) (c : Cand) : Bool :=
  let n := jsToLower c.name
  n = wanted || strEndsWith n wanted || strEndsWith wanted n

/-- `pickFileId(torrent, preferredName, season, episode)` (part_002 lines
218-259).  Returns `none` for JS `null`. -/
def pickFileId (t : Torrent) (preferredName : Option String)
    (season episode : Option Nat) : Option String :=
  let files := videoCands t
  if files.isEmpty then none
  else
    let episodic :=
      if truthyNat season && truthyNat episode then
        files.filter (fun f => isEpisodicName f.name (season.getD 0) (episode.getD 0))
      else []
    match pickLargest episodic with
    | some c => some c.id
    | none =>
      let wanted := jsToLower (preferredName.getD "")
      match (if (preferredName.getD "") ≠ "" then files.find? (prefMatch wanted) else none) with
      | some c => some c.id
      | none => (pickLargest files).map (·.id)

end Torbox2

/-! ## ncore-client bencode decoder and metadata extractor
(src/unnamed/part_005)

Byte buffers are `List Nat` (byte values).  Decoded bencode byte strings
are kept as raw byte lists; the JS code turns them into UTF-8 strings,
and every comparison it performs on them (dictionary keys, extensions,
scheme prefixes) is on ASCII data, where the byte-level comparison
coincides. -/

namespace Ncore

/-- An error thrown by the parser (`Error(msg)`), or exhaustion of the
structural-recursion fuel, which `parseBencodeValue_no_fuel` below proves
unreachable for the fuel the top-level entry points supply. -/
inductive JsError
  | thrown (msg : String)
  | outOfFuel
  deriving DecidableEq, Repr

/-- A decoded bencode value (`skipOnly` mode of the source differs only in
not materializing this; the offsets it computes are identical). -/
inductive BVal
  | int (n : JsNum)
  | str (bytes : List Nat)
  | list (xs : List BVal)
  | dict (kvs : List (List Nat × BVal))

/-- `buffer[i]` (undefined out of bounds). -/
def byteAt (buf : List Nat) (i : Nat) : Option Nat :=
  buf.get? i

/-- `buffer.slice(a, b)`. -/
def sliceB (buf : List Nat) (a b : Nat) : List Nat :=
  (buf.drop a).take (b - a)

def isDigitByte (b : Nat) : Bool :=
  0x30 ≤ b && b ≤ 0x39

/-- Scan of `idxOfFrom` over the remaining bytes, carrying the absolute
index. -/
def idxOfGo (target : Nat) : List Nat → Nat → Option Nat
  | [], _ => none
  | b :: rest, idx => if b = target then some idx else idxOfGo target rest (idx + 1)

/-- `buffer.indexOf(target, start)`. -/
def idxOfFrom (buf : List Nat) (target : Nat) (start : Nat) : Option Nat :=
  idxOfGo target (buf.drop start) start

/-- Scan of `scanDigitsEnd` over the remaining bytes. -/
def scanDigitsGo : List Nat → Nat → Nat
  | [], i => i
  | b :: rest, i => if isDigitByte b then scanDigitsGo rest (i + 1) else i

/-- First index `≥ i` holding a non-digit byte (or the buffer length). -/
def scanDigitsEnd (buf : List Nat) (i : Nat) : Nat :=
  scanDigitsGo (buf.drop i) i

/-- Value of a run of ASCII digit bytes. -/
def digitsVal (ds : List Nat) : Nat :=
  ds.foldl (fun acc d => acc * 10 + (d - 0x30)) 0

/-- `Number(s)` for the ASCII string of a bencode integer body: empty or
all-whitespace is 0, an optional sign followed by digits parses, anything
else is `NaN`.  (Fractional / hex / exponent forms do not occur in
bencode data and are not modelled.) -/
def jsNumOfBytes (bs : List Nat) : JsNum :=
  let t := bs.dropWhile (fun b => b = 0x20 || b = 0x9 || b = 0xa || b = 0xd)
  let t := (t.reverse.dropWhile (fun b => b = 0x20 || b = 0x9 || b = 0xa || b = 0xd)).reverse
  if t.isEmpty then .num 0
  else
    let (neg, digits) :=
      match t with
      | 0x2d :: rest => (true, rest)
      | 0x2b :: rest => (false, rest)
      | _ => (false, t)
    if digits.isEmpty || !digits.all isDigitByte then .nan
    else .num (if neg then -(digitsVal digits : Int) else (digitsVal digits : Int))

/-- `readByteString(buffer, offset)` (part_005 lines 387-409): scan the
digit run, require a `:` inside the buffer, and require the declared
length to fit in the remainder. -/
def readByteString (buf : List Nat) (off : Nat) : Except JsError (List Nat × Nat) :=
  let cursor := scanDigitsEnd buf off
  if cursor = off || byteAt buf cursor ≠ some 0x3a then
    .error (.thrown "invalid bencode byte string")
  else
    let len := digitsVal (sliceB buf off cursor)
    let start := cursor + 1
    let stop := start + len
    if stop > buf.length then .error (.thrown "invalid bencode byte string length")
    else .ok (sliceB buf start stop, stop)

mutual

/-- `parseBencodeValue(buffer, offset)` (part_005 lines 416-461), with a
structural-recursion fuel. -/
def parseB : Nat → List Nat → Nat → Except JsError (BVal × Nat)
  | 0, _, _ => .error .outOfFuel
  | Nat.succ fuel, buf, off =>
    match byteAt buf off with
    | none => .error (.thrown "invalid bencode token")
    | some c =>
      if c = 0x69 then
        match idxOfFrom buf 0x65 (off + 1) with
        | none => .error (.thrown "invalid bencode integer")
        | some e => .ok (.int (jsNumOfBytes (sliceB buf (off + 1) e)), e + 1)
      else if c = 0x6c then parseListB fuel buf (off + 1) []
      else if c = 0x64 then parseDictB fuel buf (off + 1) []
      else if isDigitByte c then
        match readByteString buf off with
        | .error e => .error e
        | .ok (v, nx) => .ok (.str v, nx)
      else .error (.thrown "invalid bencode token")

/-- The list loop of `parseBencodeValue`. -/
def parseListB : Nat → List Nat → Nat → List BVal → Except JsError (BVal × Nat)
  | 0, _, _, _ => .error .outOfFuel
  | Nat.succ fuel, buf, cur, acc =>
    match byteAt buf cur with
    | none => .error (.thrown "invalid bencode list")
    | some c =>
      if c = 0x65 then .ok (.list acc.reverse, cur + 1)
      else
        match parseB fuel buf cur with
        | .error e => .error e
        | .ok (v, nx) => parseListB fuel buf nx (v :: acc)

/-- The dictionary loop of `parseBencodeValue`.  Key/value pairs are kept
in encounter order; JS property assignment lets a duplicate key
overwrite, so lookups take the last occurrence (`dictGetLast`). -/
def parseDictB : Nat → List Nat → Nat → List (List Nat × BVal) → Except JsError (BVal × Nat)
  | 0, _, _, _ => .error .outOfFuel
  | Nat.succ fuel, buf, cur, acc =>
    match byteAt buf cur with
    | none => .error (.thrown "invalid bencode dictionary")
    | some c =>
      if c = 0x65 then .ok (.dict acc.reverse, cur + 1)
      else
        match readByteString buf cur with
        | .error e => .error e
        | .ok (key, kn) =>
          match parseB fuel buf kn with
          | .error e => .error e
          | .ok (v, nx) => parseDictB fuel buf nx ((key, v) :: acc)

end

/-- Fuel sufficient for any value in the buffer (established by
`parseB_fuel`). -/
def bencodeFuel (buf : List Nat) : Nat :=
  2 * buf.length + 3

/-- `parseBencodeValue(buffer, offset)`. -/
def parseBencodeValue (buf : List Nat) (off : Nat) : Except JsError (BVal × Nat) :=
  parseB (bencodeFuel buf) buf off

/-- `skipBencodeValue(buffer, offset)`: same traversal, only the end
offset is used. -/
def skipBencodeValue (buf : List Nat) (off : Nat) : Except JsError Nat :=
  (parseBencodeValue buf off).map (·.2)

end Ncore

namespace Ncore

/-- Property lookup on a decoded dictionary: the last assignment wins, as
with JS object property writes. -/
def dictGetLast (kvs : List (List Nat × BVal)) (key : List Nat) : Option BVal :=
  (kvs.reverse.find? (fun p => p.1 = key)).map (·.2)

/-- `value[key]` for a decoded value (only dictionaries carry keyed
properties). -/
def propOf (v : BVal) (key : String) : Option BVal :=
  match v with
  | .dict kvs => dictGetLast kvs (asciiStr key)
  | _ => none

/-- `value.length`: a dictionary's `length` entry, an array's element
count, a string's character count (byte count here; the UTF-16 nuance is
irrelevant to the modelled paths). -/
def lengthPropOf (v : BVal) : Option BVal :=
  match v with
  | .dict kvs => dictGetLast kvs (asciiStr "length")
  | .list xs => some (.int (.num xs.length))
  | .str bs => some (.int (.num bs.length))
  | .int _ => none

/-- `Number(x)` for a possibly-missing decoded value.  JS coerces a
singleton array by recursing into its element; one level covers every
value bencode decoding can place in a length position (deeper
singleton-in-singleton nesting is approximated as `NaN`). -/
def jsNumOfBVal : Option BVal → JsNum
  | none => .nan
  | some (.int j) => j
  | some (.str bs) => jsNumOfBytes bs
  | some (.list []) => .num 0
  | some (.list [x]) =>
    match x with
    | .int j => j
    | .str bs => jsNumOfBytes bs
    | .list [] => .num 0
    | _ => .nan
  | some (.list (_ :: _ :: _)) => .nan
  | some (.dict _) => .nan

/-- `readString(value)`: the value if it decoded from a byte string,
else `''`. -/
def readString : Option BVal → List Nat
  | some (.str s) => s
  | _ => []

/-- `joinPath(pathValue)`: an array's string elements, empties dropped,
joined with `/`; otherwise `readString`. -/
def joinPath (v : Option BVal) : List Nat :=
  match v with
  | some (.list parts) =>
    let segs := (parts.map (fun p => readString (some p))).filter (· ≠ [])
    match segs with
    | [] => []
    | s :: rest => rest.foldl (fun acc seg => acc ++ [0x2f] ++ seg) s
  | _ => readString v

/-- ASCII lowercase of a byte. -/
def lowerByte (b : Nat) : Nat :=
  if 0x41 ≤ b && b ≤ 0x5a then b + 32 else b

/-- `isVideoFile(filename)` of part_005, on the raw bytes of the name. -/
def isVideoFileB (name : List Nat) : Bool :=
  Torbox.VIDEO_EXTENSIONS.any (fun ext => (asciiStr ext).isSuffixOf (name.map lowerByte))

/-- One entry of `resolveVideoFiles`. -/
structure VideoFileEntry where
  index : Nat
  name : List Nat
  length : JsNum
  deriving DecidableEq, Repr

/-- The candidate records of `resolveBestVideoFile`'s multi-file branch. -/
structure FileCand where
  index : Nat
  length : Int
  name : List Nat
  deriving DecidableEq, Repr

/-- `Number(file?.length) || 0`. -/
def fileLen (f : BVal) : Int :=
  (jsNumOfBVal (lengthPropOf f)).orDefault 0

/-- `joinPath(file?.['path.utf-8']) || joinPath(file?.path) || ''`. -/
def filePath (f : BVal) : List Nat :=
  let p1 := joinPath (propOf f "path.utf-8")
  if p1 ≠ [] then p1 else joinPath (propOf f "path")

/-- Head of `sort((a, b) => b.length - a.length)` over file candidates. -/
def largestFileCand (xs : List FileCand) : Option FileCand :=
  xs.foldl (fun acc c =>
    match acc with
    | none => some c
    | some b => if c.length > b.length then some c else some b) none

/-- `info.files` as an array, if present. -/
def infoFiles (info : BVal) : Option (List BVal) :=
  match propOf info "files" with
  | some (.list xs) => some xs
  | _ => none

/-- `readString(info['name.utf-8']) || readString(info.name)`. -/
def infoName (info : BVal) : List Nat :=
  let n := readString (propOf info "name.utf-8")
  if n ≠ [] then n else readString (propOf info "name")

/-- Does `Number(info.length)` denote a positive finite single-file
length? -/
def singleFileLen (info : BVal) : Option Int :=
  match jsNumOfBVal (lengthPropOf info) with
  | .nan => none
  | .num v => if v > 0 then some v else none

/-- `resolveBestVideoFile(info)` (part_005 lines 481-511): `(fileIdx,
fileName)`, both possibly undefined. -/
def resolveBestVideoFile (info : BVal) : Option Nat × Option (List Nat) :=
  match info with
  | .int _ | .str _ => (none, none)
  | _ =>
    match singleFileLen info with
    | some _ => (some 0, some (infoName info))
    | none =>
      match infoFiles info with
      | none => (none, none)
      | some [] => (none, none)
      | some files =>
        let candidates := files.enum.map (fun p => FileCand.mk p.1 (fileLen p.2) (filePath p.2))
        let videos := candidates.filter (fun c => isVideoFileB c.name)
        match largestFileCand videos with
        | none => (none, none)
        | some best => (some best.index, some best.name)

/-- `resolveVideoFiles(info)` (part_005 lines 513-531). -/
def resolveVideoFiles (info : BVal) : List VideoFileEntry :=
  match info with
  | .int _ | .str _ => []
  | _ =>
    match singleFileLen info with
    | some v =>
      let name := infoName info
      if isVideoFileB name then [⟨0, name, .num v⟩] else []
    | none =>
      match infoFiles info with
      | none => []
      | some [] => []
      | some files =>
        (files.enum.map (fun p =>
          VideoFileEntry.mk p.1 (filePath p.2) (.num (fileLen p.2)))).filter
          (fun f => isVideoFileB f.name)

/-- `flattenAnnounceList(value)`: string entries and the string elements
of nested arrays, in order. -/
def flattenAnnounceList : BVal → List (List Nat)
  | .list entries =>
    (entries.map (fun e =>
      match e with
      | .list nested => nested.filterMap (fun n => match n with | .str s => some s | _ => none)
      | .str s => [s]
      | _ => [])).flatten
  | _ => []

/-- `isSupportedTrackerUrl(value)`: the lowercased tracker starts with one
of the five supported schemes. -/
def isSupportedTrackerB (tracker : List Nat) : Bool :=
  ["udp://", "http://", "https://", "ws://", "wss://"].any
    (fun scheme => (asciiStr scheme).isPrefixOf (tracker.map lowerByte))

/-- Accumulated results of the top-level key walk of `parseTorrentMeta`:
`(infoStart, infoEnd, announce, announceList)`; `-1` marks "not seen". -/
structure WalkAcc where
  infoStart : Int
  infoEnd : Int
  announce : List Nat
  announceList : List (List Nat)

/-- The `while (offset < buffer.length && buffer[offset] !== 0x65)` key
walk of `parseTorrentMeta` (part_005 lines 342-369).  Each iteration
strictly advances `offset`, so `buf.length + 1` fuel never runs out on
reachable inputs; exhaustion is modelled as `outOfFuel`. -/
def metaWalk (buf : List Nat) : Nat → Nat → WalkAcc → Except JsError WalkAcc
  | 0, _, _ => .error .outOfFuel
  | Nat.succ fuel, offset, acc =>
    match byteAt buf offset with
    | none => .ok acc
    | some c =>
      if c = 0x65 then .ok acc
      else
        match readByteString buf offset with
        | .error e => .error e
        | .ok (key, kn) =>
          if key = asciiStr "info" then
            match skipBencodeValue buf kn with
            | .error e => .error e
            | .ok ie => metaWalk buf fuel ie { acc with infoStart := kn, infoEnd := ie }
          else if key = asciiStr "announce" then
            match readByteString buf kn with
            | .error e => .error e
            | .ok (v, n2) => metaWalk buf fuel n2 { acc with announce := v }
          else if key = asciiStr "announce-list" then
            match parseBencodeValue buf kn with
            | .error e => .error e
            | .ok (v, n2) => metaWalk buf fuel n2 { acc with announceList := flattenAnnounceList v }
          else
            match skipBencodeValue buf kn with
            | .error e => .error e
            | .ok n2 => metaWalk buf fuel n2 acc

/-- The result of `parseTorrentMeta`.  `infoRaw` is the source's local
`infoRaw = buffer.slice(infoStart, infoEnd)`, returned here so theorems
can speak about the hashed byte range. -/
structure TorrentMeta where
  infoHash : String
  trackers : List (List Nat)
  fileIdx : Option Nat
  fileName : Option (List Nat)
  videoFiles : List VideoFileEntry
  infoRaw : List Nat
  deriving DecidableEq

/-- `parseTorrentMeta(buffer)` (part_005 lines 331-385), parameterized by
the SHA-1 implementation `sha1Hex` (`crypto.createHash('sha1')...`): the
claims about it hold for every hash function. -/
def parseTorrentMeta (sha1Hex : List Nat → String) (buf : List Nat) :
    Except JsError TorrentMeta :=
  if buf.length = 0 || byteAt buf 0 ≠ some 0x64 then .error (.thrown "invalid torrent data")
  else
    match metaWalk buf (buf.length + 1) 1 ⟨-1, -1, [], []⟩ with
    | .error e => .error e
    | .ok acc =>
      if acc.infoStart < 0 || acc.infoEnd ≤ acc.infoStart then
        .error (.thrown "missing info dictionary in torrent")
      else
        let infoRaw := sliceB buf acc.infoStart.toNat acc.infoEnd.toNat
        let infoHash := sha1Hex infoRaw
        match parseBencodeValue buf acc.infoStart.toNat with
        | .error e => .error e
        | .ok (info, _) =>
          let best := resolveBestVideoFile info
          let videoFiles := resolveVideoFiles info
          let trackers :=
            (dedupKeepFirst ((acc.announce :: acc.announceList).filter (· ≠ []))).filter
              isSupportedTrackerB
          .ok ⟨infoHash, trackers, best.1, best.2, videoFiles, infoRaw⟩

end Ncore

/-! ## HTTP app resolved-URL cache (src/api/app.js)

Model of the `/resolve` endpoint's use of `resolveCache`
(`createApp`, lines 296-382): opportunistic pruning, the serve-from-cache
fast path, and insertion after a successful resolution.  Credential
decoding, the selection cache, the cached-availability probe and the
in-flight map (erased in `finally` before the next sequential request)
are orthogonal to the resolved-URL TTL behaviour and are elided. -/

namespace WebApp

/-- `RESOLVE_CACHE_TTL_MS = 1000 * 60 * 20`. -/
def RESOLVE_CACHE_TTL_MS : Nat := 1000 * 60 * 20

/-- An entry of `resolveCache`. -/
structure RCacheEntry where
  url : String
  expiresAt : Nat
  deriving DecidableEq, Repr

/-- The `resolveCache` map, as an association list with unique keys. -/
def RCache := List (String × RCacheEntry)

/-- `pruneResolveCache()`: drop entries with `expiresAt <= now`. -/
def prune (cache : RCache) (now : Nat) : RCache :=
  cache.filter (fun kv => !(kv.2.expiresAt ≤ now))

/-- `resolveCache.get(resolveKey)`. -/
def lookupC (cache : RCache) (key : String) : Option RCacheEntry :=
  (cache.find? (fun kv => kv.1 = key)).map (·.2)

/-- `resolveCache.set(resolveKey, entry)`. -/
def setC (cache : RCache) (key : String) (entry : RCacheEntry) : RCache :=
  (key, entry) :: cache.filter (fun kv => kv.1 ≠ key)

/-- Response of the `/resolve` endpoint (302 redirect or a JSON error
status). -/
inductive RResp
  | redirect (url : String)
  | failure (status : Nat)
  deriving DecidableEq, Repr

/-- The resolution path taken when the cache fast path misses:
`resolverResult` is what the awaited `torboxResolver` promise produced
(`none` = it rejected; `some url` = `resolved.url`).  On a usable URL the
entry is cached with a `RESOLVE_CACHE_TTL_MS` lifetime. -/
def proceedResolve (cache : RCache) (now : Nat) (key : String)
    (resolverResult : Option String) : RResp × RCache × Bool :=
  match resolverResult with
  | none => (.failure 502, cache, true)
  | some url =>
    if url = "" then (.failure 502, cache, true)
    else (.redirect url, setC cache key ⟨url, now + RESOLVE_CACHE_TTL_MS⟩, true)

/-- One `/resolve` request for `key` at time `now` (app.js lines
296-382): prune, serve a live cached URL without touching the resolver,
otherwise resolve remotely and cache the result.  The returned `Bool`
says whether the remote resolver was invoked. -/
def handleResolve (cache : RCache) (now : Nat) (key : String)
    (resolverResult : Option String) : RResp × RCache × Bool :=
  let cache := prune cache now
  match lookupC cache key with
  | some entry =>
    if now < entry.expiresAt && entry.url ≠ "" then (.redirect entry.url, cache, false)
    else proceedResolve cache now key resolverResult
  | none => proceedResolve cache now key resolverResult

end WebApp

/-! ## Concrete instances used by the claim theorems -/

/-- Files of the spec's range-exclusion example:
`[{id:"1",name:"Show.S01E01.mkv",size:100},{id:"2",name:"Show.S01E01-E02.mkv",size:500}]`. -/
def c2Item : Torbox.Item :=
  { files := some
      [ { id := some "1", name := some "Show.S01E01.mkv", size := some (.num 100) },
        { id := some "2", name := some "Show.S01E01-E02.mkv", size := some (.num 500) } ] }

/-- A single non-video file matching a preferred name. -/
def c9Item : Torbox.Item :=
  { files := some [ { id := some "9", name := some "notes.txt", size := some (.num 5) } ] }

/-- A creation error that carries a queue-limit code but whose message also
marks it as already-exists. -/
def c3err : Torbox.TorboxError :=
  { message := some "torrent already exists", respError := some "ACTIVE_LIMIT" }

/-- Remote behaviour whose every create call fails with `c3err` and whose
listings are empty. -/
def c3env : Torbox.TbEnv :=
  { createResults := fun _ => .error c3err
    listResults := fun _ => []
    linkResults := fun _ => "" }

/-- A minimal-wait resolution request. -/
def c3args : Torbox.TbArgs :=
  { apiKey := "k", magnet := "m", infoHash := "a", maxWaitMs := some (.num 5000) }

/-- A generic (non-queue-limit, non-already-exists) creation error. -/
def c6errA : Torbox.TorboxError := { message := some "boom" }

/-- A queue-limit creation error. -/
def c6errB : Torbox.TorboxError := { respError := some "ACTIVE_LIMIT" }

/-- Remote behaviour whose first create fails generically and whose retry
fails with a queue limit. -/
def c6env : Torbox.TbEnv :=
  { createResults := fun n => if n = 0 then .error c6errA else .error c6errB
    listResults := fun _ => []
    linkResults := fun _ => "" }

def c6args : Torbox.TbArgs :=
  { apiKey := "k", magnet := "m", infoHash := "a", fileName := some "Show.mkv"
    maxWaitMs := some (.num 5000) }

/-- A job row in a terminal error state that nonetheless has a selectable
video file and a torrent id. -/
def c7item : Torbox.Item :=
  { torrent_id := some "5", hash := some "a", state := some "error"
    files := some [ { id := some "1", name := some "a.mkv" } ] }

def c7env : Torbox.TbEnv :=
  { createResults := fun _ => .ok {}
    listResults := fun _ => [c7item]
    linkResults := fun _ => "https://u" }

def c7args : Torbox.TbArgs :=
  { apiKey := "k", magnet := "m", infoHash := "a", skipCreate := true
    maxWaitMs := some (.num 5000) }

/-- A stand-in hash function for evaluating `parseTorrentMeta` (the claim
theorems hold for every hash function). -/
def shaDemo : List Nat → String := fun bs => Nat.repr bs.length

/-- A single-file torrent with tracker `udp://t.a`. -/
def c4buf1 : List Nat := asciiStr "d8:announce9:udp://t.a4:infod6:lengthi5e4:name5:a.mkvee"

/-- The same torrent with tracker `udp://t.b`; the `info` byte range is
identical. -/
def c4buf2 : List Nat := asciiStr "d8:announce9:udp://t.b4:infod6:lengthi5e4:name5:a.mkvee"

/-- The metadata `parseTorrentMeta shaDemo` extracts from `c4buf1`. -/
def c4meta1 : Ncore.TorrentMeta :=
  { infoHash := "26"
    trackers := [asciiStr "udp://t.a"]
    fileIdx := some 0
    fileName := some (asciiStr "a.mkv")
    videoFiles := [⟨0, asciiStr "a.mkv", .num 5⟩]
    infoRaw := asciiStr "d6:lengthi5e4:name5:a.mkve" }

/-- The metadata extracted from `c4buf2`. -/
def c4meta2 : Ncore.TorrentMeta :=
  { infoHash := "26"
    trackers := [asciiStr "udp://t.b"]
    fileIdx := some 0
    fileName := some (asciiStr "a.mkv")
    videoFiles := [⟨0, asciiStr "a.mkv", .num 5⟩]
    infoRaw := asciiStr "d6:lengthi5e4:name5:a.mkve" }

/-- A file list with one video file that matches no episode pattern. -/
def c1Item : Torbox.Item :=
  { files := some [ { id := some "1", name := some "Movie.mkv", size := some (.num 10) } ] }

/-- The same file list as a part_002 torrent row. -/
def c1Torrent : Torbox2.Torrent :=
  { files := some [ { id := some "1", name := some "Movie.mkv", size := some (.num 10) } ] }

/-- A job row in a terminal error state with no files and no usable
torrent id. -/
def c7bad : Torbox.Item := { hash := some "a", state := some "error" }

/-- Remote behaviour whose only job row is `c7bad`. -/
def c7wEnv : Torbox.TbEnv :=
  { createResults := fun _ => .ok {}
    listResults := fun _ => [c7bad]
    linkResults := fun _ => "" }

/-- Decidable equality on `Except`, so concrete parse results can be
checked by `decide`. -/
instance {ε α : Type} [DecidableEq ε] [DecidableEq α] : DecidableEq (Except ε α) :=
  fun a b =>
    match a, b with
    | .error e1, .error e2 => decidable_of_iff (e1 = e2) (by simp)
    | .ok a1, .ok a2 => decidable_of_iff (a1 = a2) (by simp)
    | .error _, .ok _ => isFalse (fun hc => Except.noConfusion hc)
    | .ok _, .error _ => isFalse (fun hc => Except.noConfusion hc)

/-! ## Helper lemmas -/

theorem Torbox.pickLargest_go :
    ∀ (xs : List Torbox.Cand) (b c : Torbox.Cand),
      xs.foldl (fun acc c =>
        match acc with
        | none => some c
        | some b => if c.size > b.size then some c else some b) (some b) = some c →
      (c = b ∨ c ∈ xs) ∧ b.size ≤ c.size ∧ ∀ a ∈ xs, a.size ≤ c.size
  | [], b, c, h => by
    simp only [List.foldl_nil, Option.some.injEq] at h
    exact ⟨Or.inl h.symm, le_of_eq (by rw [h]), by simp⟩
  | x :: xs, b, c, h => by
    simp only [List.foldl_cons] at h
    by_cases hx : x.size > b.size
    · rw [if_pos hx] at h
      obtain ⟨hmem, hle, hall⟩ := Torbox.pickLargest_go xs x c h
      refine ⟨?_, ?_, ?_⟩
      · rcases hmem with h' | h'
        · exact Or.inr (by simp [h'])
        · exact Or.inr (List.mem_cons_of_mem _ h')
      · exact le_trans (le_of_lt hx) hle
      · intro a ha
        rcases List.mem_cons.mp ha with h' | h'
        · exact h' ▸ hle
        · exact hall a h'
    · rw [if_neg hx] at h
      obtain ⟨hmem, hle, hall⟩ := Torbox.pickLargest_go xs b c h
      refine ⟨?_, hle, ?_⟩
      · rcases hmem with h' | h'
        · exact Or.inl h'
        · exact Or.inr (List.mem_cons_of_mem _ h')
      · intro a ha
        rcases List.mem_cons.mp ha with h' | h'
        · subst h'; omega
        · exact hall a h'

/-- `pickLargest` returns a member of maximal size. -/
theorem Torbox.pickLargest_spec (xs : List Torbox.Cand) (c : Torbox.Cand)
    (h : Torbox.pickLargest xs = some c) :
    c ∈ xs ∧ ∀ a ∈ xs, a.size ≤ c.size := by
  cases xs with
  | nil => simp [Torbox.pickLargest] at h
  | cons x xs =>
    unfold Torbox.pickLargest at h
    simp only [List.foldl_cons] at h
    obtain ⟨hmem, _, hall⟩ := Torbox.pickLargest_go xs x c h
    refine ⟨?_, ?_⟩
    · rcases hmem with h' | h'
      · simp [h']
      · exact List.mem_cons_of_mem _ h'
    · intro a ha
      rcases List.mem_cons.mp ha with h' | h'
      · obtain ⟨_, hle, _⟩ := Torbox.pickLargest_go xs x c h
        rw [h']
        exact hle
      · exact hall a h'

/-! ## C1: a series request with no episode match -/

/-- For every file list and positive season/episode, if no file both has
a video extension and matches the episode pattern, part_001's
`chooseFileIdFromTorrent` returns `""` — it never falls back to the
preferred-name match, the largest video, or the first file. -/
theorem Torbox.chooseFileId_no_episode_match
    (it : Torbox.Item) (pref : Option String) (s e : Nat)
    (hs : 0 < s) (he : 0 < e)
    (hnone : ∀ f ∈ Torbox.pickFileArray it,
      ¬(Torbox.isVideoFile (Torbox.readFileName f) = true ∧
        Torbox.isEpisodeFileMatch (Torbox.readFileName f) s e = true)) :
    Torbox.chooseFileIdFromTorrent it pref (some s) (some e) = "" := by
  unfold Torbox.chooseFileIdFromTorrent
  by_cases hemp : (Torbox.pickFileArray it).isEmpty
  · simp [hemp]
  · have hmatches : Torbox.episodeMatches it s e = [] := by
      unfold Torbox.episodeMatches
      rw [List.filter_eq_nil_iff]
      intro c hc
      obtain ⟨f, hf, rfl⟩ := List.mem_map.mp hc
      have := hnone f hf
      simp only [Torbox.mkCand, Bool.and_eq_true, decide_eq_true_eq, not_and] at this ⊢
      intro h1
      rcases h1 with ⟨_, hvid⟩
      intro hep
      exact this hvid hep
    have hs' : truthyNat (some s) = true := by simp [truthyNat]; omega
    have he' : truthyNat (some e) = true := by simp [truthyNat]; omega
    simp only [hemp, hs', he', Option.getD_some, Bool.and_self, if_false, Bool.if_true_left]
    simp [hmatches, Torbox.pickLargest]

/-- C1 counterexample: on a file list whose only video file matches no
episode pattern for season 1 episode 2, part_002's `pickFileId` does not
return none — it falls back to the largest video and returns `"1"`,
refuting the claim for that cited selector. -/
theorem c1_counterexample :
    Torbox2.isEpisodicName "Movie.mkv" 1 2 = false ∧
    Torbox2.pickFileId c1Torrent none (some 1) (some 2) = some "1" := by
  exact ⟨by decide, by decide⟩

/-- C1 as amended.  With both season and episode positive and no file
that both has a video extension and matches an episode pattern:
part_001's `chooseFileIdFromTorrent` returns none (empty id), never
falling back to the preferred-name match, the largest video, or the
first file; part_002's `pickFileId` instead ignores the unmatched
episode criteria and behaves exactly as if no season/episode were given,
falling through to its preferred-name/largest-video selection. -/
theorem c1_amended_no_match_behavior :
    (∀ (it : Torbox.Item) (pref : Option String) (s e : Nat),
      0 < s → 0 < e →
      (∀ f ∈ Torbox.pickFileArray it,
        ¬(Torbox.isVideoFile (Torbox.readFileName f) = true ∧
          Torbox.isEpisodeFileMatch (Torbox.readFileName f) s e = true)) →
      Torbox.chooseFileIdFromTorrent it pref (some s) (some e) = "") ∧
    (∀ (t : Torbox2.Torrent) (pref : Option String) (s e : Nat),
      0 < s → 0 < e →
      (∀ c ∈ Torbox2.videoCands t, Torbox2.isEpisodicName c.name s e = false) →
      Torbox2.pickFileId t pref (some s) (some e) = Torbox2.pickFileId t pref none none) := by
  refine ⟨Torbox.chooseFileId_no_episode_match, ?_⟩
  intro t pref s e hs he hn
  unfold Torbox2.pickFileId
  have hts : truthyNat (some s) = true := by simp [truthyNat]; omega
  have hte : truthyNat (some e) = true := by simp [truthyNat]; omega
  have htn : truthyNat none = false := rfl
  have hfil : (Torbox2.videoCands t).filter
      (fun f => Torbox2.isEpisodicName f.name s e) = [] := by
    rw [List.filter_eq_nil_iff]
    intro c hc
    simp [hn c hc]
  simp only [hts, hte, htn, Bool.and_self, Bool.false_and, if_true, if_false,
    Option.getD_some, hfil]
  rfl

/-- C1 witness for the amended claim: part_001 returns `""` on the
no-match list; part_002 on the same list reduces to its
no-criteria selection. -/
theorem c1_amended_witness :
    Torbox.chooseFileIdFromTorrent c1Item none (some 1) (some 2) = "" ∧
    Torbox2.pickFileId c1Torrent none (some 1) (some 2) =
      Torbox2.pickFileId c1Torrent none none none :=
  ⟨c1_amended_no_match_behavior.1 c1Item none 1 2 (by decide) (by decide) (by decide),
   c1_amended_no_match_behavior.2 c1Torrent none 1 2 (by decide) (by decide) (by decide)⟩

theorem rxMeasure_pos (rx : Rx) : 1 ≤ rxMeasure rx := by
  cases rx <;> simp [rxMeasure]

/-- The matcher's result is independent of the fuel once the fuel exceeds
`rxMeasure rx + cs.length` (and of the continuation beyond the reachable
suffixes): the fuel `mrun` supplies is sufficient. -/
theorem mrunF_stable :
    ∀ (f1 : Nat) (f2 : Nat) (rx : Rx) (prev : Option Char) (cs : List Char)
      (k1 k2 : Option Char → List Char → Bool),
      (∀ p r, r.length ≤ cs.length → k1 p r = k2 p r) →
      rxMeasure rx + cs.length < f1 → rxMeasure rx + cs.length < f2 →
      mrunF f1 rx prev cs k1 = mrunF f2 rx prev cs k2 := by
  intro f1
  induction f1 with
  | zero =>
    intro f2 rx prev cs k1 k2 hk h1 h2
    have := rxMeasure_pos rx
    omega
  | succ f1 ih =>
    intro f2 rx prev cs k1 k2 hk h1 h2
    have hpos := rxMeasure_pos rx
    obtain ⟨f2', rfl⟩ : ∃ f2', f2 = f2' + 1 := ⟨f2 - 1, by omega⟩
    cases rx with
    | eps => exact hk prev cs le_rfl
    | lit s =>
      cases s with
      | nil => exact hk prev cs le_rfl
      | cons c srest =>
        cases cs with
        | nil => rfl
        | cons d drest =>
          simp only [mrunF]
          congr 1
          refine ih f2' (.lit srest) (some d) drest k1 k2 ?_ ?_ ?_
          · intro p r hr
            exact hk p r (by simpa using Nat.le_succ_of_le hr)
          · simp [rxMeasure] at h1 ⊢; omega
          · simp [rxMeasure] at h2 ⊢; omega
    | one p =>
      cases cs with
      | nil => rfl
      | cons d drest =>
        simp only [mrunF]
        congr 1
        exact hk (some d) drest (by simp)
    | many p =>
      cases cs with
      | nil =>
        simp only [mrunF]
        rw [hk prev [] le_rfl]
      | cons d drest =>
        simp only [mrunF]
        rw [hk prev (d :: drest) le_rfl]
        congr 1
        congr 1
        refine ih f2' (.many p) (some d) drest k1 k2 ?_ ?_ ?_
        · intro q r hr
          exact hk q r (by simpa using Nat.le_succ_of_le hr)
        · simp [rxMeasure] at h1 ⊢; omega
        · simp [rxMeasure] at h2 ⊢; omega
    | seq a b =>
      simp only [mrunF]
      refine ih f2' a prev cs _ _ ?_ ?_ ?_
      · intro q r hr
        refine ih f2' b q r k1 k2 ?_ ?_ ?_
        · intro q' r' hr'
          exact hk q' r' (le_trans hr' hr)
        · have := rxMeasure_pos a
          simp [rxMeasure] at h1 ⊢; omega
        · have := rxMeasure_pos a
          simp [rxMeasure] at h2 ⊢; omega
      · have := rxMeasure_pos b
        simp [rxMeasure] at h1 ⊢; omega
      · have := rxMeasure_pos b
        simp [rxMeasure] at h2 ⊢; omega
    | alt a b =>
      simp only [mrunF]
      congr 1
      · refine ih f2' a prev cs k1 k2 hk ?_ ?_ <;>
          [have := rxMeasure_pos b; have := rxMeasure_pos b] <;>
          simp [rxMeasure] at h1 h2 ⊢ <;> omega
      · refine ih f2' b prev cs k1 k2 hk ?_ ?_ <;>
          [have := rxMeasure_pos a; have := rxMeasure_pos a] <;>
          simp [rxMeasure] at h1 h2 ⊢ <;> omega
    | opt a =>
      simp only [mrunF]
      rw [hk prev cs le_rfl]
      congr 1
      refine ih f2' a prev cs k1 k2 hk ?_ ?_ <;>
        simp [rxMeasure] at h1 h2 ⊢ <;> omega
    | wb =>
      simp only [mrunF]
      rw [hk prev cs le_rfl]

/-! ## C2: range exclusion beats size in the episode branch -/

/-- C2.  A name matching a multi-episode range pattern is never an episode
match (range exclusion); among the surviving episode candidates the
selector returns the id of one of maximal size; and on the spec's
concrete example it returns `"1"` despite the range file being larger. -/
theorem c2_range_exclusion_beats_size :
    (∀ (name : String) (s e : Nat),
      Torbox.epRangeTest (jsToLower name).toList s e = true →
      Torbox.isEpisodeFileMatch name s e = false) ∧
    (∀ (it : Torbox.Item) (pref : Option String) (s e : Nat) (c : Torbox.Cand),
      0 < s → 0 < e →
      Torbox.pickLargest (Torbox.episodeMatches it s e) = some c →
      Torbox.chooseFileIdFromTorrent it pref (some s) (some e) = c.id ∧
      c ∈ Torbox.episodeMatches it s e ∧
      ∀ b ∈ Torbox.episodeMatches it s e, b.size ≤ c.size) ∧
    Torbox.chooseFileIdFromTorrent c2Item none (some 1) (some 1) = "1" := by
  refine ⟨?_, ?_, by decide⟩
  · intro name s e hr
    by_cases h0 : s = 0 || e = 0
    · simp [Torbox.isEpisodeFileMatch, h0]
    · simp only [Torbox.isEpisodeFileMatch, h0]
      simp only [Bool.false_eq_true, if_false]
      split
      · rfl
      · simp only [Bool.and_eq_false_iff]
        right
        simp only [Bool.not_eq_false']
        exact hr
  · intro it pref s e c hs he hpick
    obtain ⟨hmem, hmax⟩ : c ∈ Torbox.episodeMatches it s e ∧
        ∀ b ∈ Torbox.episodeMatches it s e, b.size ≤ c.size := by
      unfold Torbox.episodeMatches at hpick ⊢
      exact Torbox.pickLargest_spec _ _ hpick
    refine ⟨?_, hmem, hmax⟩
    have hfiles : ¬(Torbox.pickFileArray it).isEmpty := by
      unfold Torbox.episodeMatches at hmem
      obtain ⟨f, hf, _⟩ := List.mem_map.mp (List.mem_filter.mp hmem).1
      intro hemp
      rw [List.isEmpty_iff.mp hemp] at hf
      simp at hf
    have hs' : truthyNat (some s) = true := by simp [truthyNat]; omega
    have he' : truthyNat (some e) = true := by simp [truthyNat]; omega
    unfold Torbox.chooseFileIdFromTorrent
    simp only [hfiles, hs', he', Option.getD_some, Bool.and_self, if_false, hpick]
    simp

/-- C2 witness: range exclusion on the concrete range name, the maximality
of the surviving match, and the concrete selection. -/
theorem c2_witness :
    Torbox.isEpisodeFileMatch "Show.S01E01-E02.mkv" 1 1 = false ∧
    Torbox.chooseFileIdFromTorrent c2Item none (some 1) (some 1) = "1" ∧
    (⟨"1", "Show.S01E01.mkv", 100⟩ : Torbox.Cand) ∈ Torbox.episodeMatches c2Item 1 1 :=
  ⟨c2_range_exclusion_beats_size.1 "Show.S01E01-E02.mkv" 1 1 (by decide),
   (c2_range_exclusion_beats_size.2.1 c2Item none 1 1 ⟨"1", "Show.S01E01.mkv", 100⟩
      (by decide) (by decide) (by decide)).1.trans rfl,
   (c2_range_exclusion_beats_size.2.1 c2Item none 1 1 ⟨"1", "Show.S01E01.mkv", 100⟩
      (by decide) (by decide) (by decide)).2.1⟩

/-! ## C9: preferred-name selection -/

theorem jsToLower_ne_empty (s : String) (h : s ≠ "") : jsToLower s ≠ "" := by
  intro hc
  apply h
  have hdata : (s.toList.map Char.toLower) = [] := congrArg String.data hc
  have : s.toList = [] := List.map_eq_nil_iff.mp hdata
  cases s with
  | mk data =>
    cases this
    rfl

theorem Torbox.findPreferred_nil (p : String) : Torbox.findPreferred [] p = none := rfl

/-- C9 counterexample: with no season/episode and preferred name
`notes.txt`, part_001's `chooseFileIdFromTorrent` returns the id of
`notes.txt`, a file without a video extension — the claim's "drawn only
from files with a video extension" fails on this selector. -/
theorem c9_counterexample :
    Torbox.chooseFileIdFromTorrent c9Item (some "notes.txt") none none = "9" ∧
    Torbox.isVideoFile "notes.txt" = false := by
  decide

/-- C9 as amended.  For part_002's `pickFileId` the claim holds: with no
season/episode and a non-empty preferred name, the first video-extension
candidate (in list order) matching the preferred name by case-insensitive
equality or suffix/prefix containment is selected, and only
video-extension candidates are eligible.  Part_001's
`chooseFileIdFromTorrent` applies the same first-match name rule but over
all files regardless of extension. -/
theorem c9_amended_preferred_name_selection :
    (∀ (t : Torbox2.Torrent) (pref : String) (c : Torbox2.Cand),
      pref ≠ "" →
      (Torbox2.videoCands t).find? (Torbox2.prefMatch (jsToLower pref)) = some c →
      Torbox2.pickFileId t (some pref) none none = some c.id ∧
      c ∈ Torbox2.videoCands t ∧ Torbox2.isVideoCand c = true) ∧
    (∀ (it : Torbox.Item) (pref fid : String),
      pref ≠ "" →
      Torbox.findPreferred (Torbox.pickFileArray it) (jsToLower pref) = some fid →
      Torbox.chooseFileIdFromTorrent it (some pref) none none = fid) := by
  constructor
  · intro t pref c hp hfind
    have hmem : c ∈ Torbox2.videoCands t := List.mem_of_find?_eq_some hfind
    have hvid : Torbox2.isVideoCand c = true := by
      have := (List.mem_filter.mp hmem).2
      simp only [Bool.and_eq_true] at this
      exact this.2
    refine ⟨?_, hmem, hvid⟩
    have hne : ¬(Torbox2.videoCands t).isEmpty := by
      intro hemp
      rw [List.isEmpty_iff.mp hemp] at hmem
      simp at hmem
    unfold Torbox2.pickFileId
    simp only [hne, truthyNat, Bool.false_and, if_false, Option.getD_some, hp, hfind]
    simp [hp, Torbox2.pickLargest]
  · intro it pref fid hp hfind
    have hne : ¬(Torbox.pickFileArray it).isEmpty := by
      intro hemp
      rw [List.isEmpty_iff.mp hemp] at hfind
      rw [Torbox.findPreferred_nil] at hfind
      exact Option.noConfusion hfind
    have hlp : jsToLower pref ≠ "" := jsToLower_ne_empty pref hp
    unfold Torbox.chooseFileIdFromTorrent
    simp only [hne, truthyNat, Bool.false_and, if_false, Option.getD_some, hlp, if_true, hfind]
    simp [hlp]

/-- C9 witness for the amended claim: a torrent whose second video file
matches the preferred name, and a part_001 item with a matching
(non-video) file. -/
theorem c9_amended_witness :
    Torbox2.pickFileId
      { files := some
          [ { id := some "1", name := some "Other.mkv", size := some (.num 900) },
            { id := some "2", name := some "Show.S01E01.mkv", size := some (.num 100) } ] }
      (some "show.s01e01.mkv") none none = some "2" ∧
    Torbox.chooseFileIdFromTorrent c9Item (some "notes.txt") none none = "9" := by
  constructor
  · exact (c9_amended_preferred_name_selection.1
      { files := some
          [ { id := some "1", name := some "Other.mkv", size := some (.num 900) },
            { id := some "2", name := some "Show.S01E01.mkv", size := some (.num 100) } ] }
      "show.s01e01.mkv" ⟨"2", "Show.S01E01.mkv", "Show.S01E01.mkv", 100⟩
      (by decide) (by decide)).1
  · exact c9_amended_preferred_name_selection.2 c9Item "notes.txt" "9" (by decide) (by decide)

/-! ## C10: the polling window is clamped to at least 5000 ms -/

/-- C10.  The polling deadline of `resolveTorboxLinkWithWait` lies at
least 5000 ms after the start for every `maxWaitMs`; `0`, `NaN` and a
missing argument yield the 600000 ms default window; positive values
below 5000 and negative values are clamped up to 5000. -/
theorem c10_wait_window_clamped :
    (∀ w : Option JsNum, 5000 ≤ Torbox.effectiveWait w) ∧
    Torbox.effectiveWait none = 600000 ∧
    Torbox.effectiveWait (some .nan) = 600000 ∧
    Torbox.effectiveWait (some (.num 0)) = 600000 ∧
    (∀ v : Int, 0 < v → v < 5000 → Torbox.effectiveWait (some (.num v)) = 5000) ∧
    (∀ v : Int, v < 0 → Torbox.effectiveWait (some (.num v)) = 5000) := by
  refine ⟨?_, by decide, by decide, by decide, ?_, ?_⟩
  · intro w
    exact le_max_left _ _
  · intro v h0 h5
    simp only [Torbox.effectiveWait, Option.getD_some, JsNum.orDefault]
    rw [if_neg (by omega)]
    omega
  · intro v hneg
    simp only [Torbox.effectiveWait, Option.getD_some, JsNum.orDefault]
    rw [if_neg (by omega)]
    omega

/-- C10 witness: concrete clamped and default windows. -/
theorem c10_witness :
    Torbox.effectiveWait (some (.num 100)) = 5000 ∧
    Torbox.effectiveWait (some (.num (-7))) = 5000 ∧
    5000 ≤ Torbox.effectiveWait (some (.num 999999)) :=
  ⟨c10_wait_window_clamped.2.2.2.2.1 100 (by decide) (by decide),
   c10_wait_window_clamped.2.2.2.2.2 (-7) (by decide),
   c10_wait_window_clamped.1 (some (.num 999999))⟩

/-! ## C8: the resolved-URL cache -/

/-- C8.  A successfully resolved URL is cached for
`RESOLVE_CACHE_TTL_MS`: a second request for the same key inside the TTL
is served from the cache with no further resolver invocation, and a
request after the TTL has elapsed invokes the resolver again. -/
theorem c8_resolve_cache_ttl
    (key url1 url2 : String) (t0 t1 t2 : Nat)
    (h1 : url1 ≠ "") (h2 : url2 ≠ "")
    (hin : t1 < t0 + WebApp.RESOLVE_CACHE_TTL_MS)
    (hout : t0 + WebApp.RESOLVE_CACHE_TTL_MS ≤ t2) :
    WebApp.handleResolve [] t0 key (some url1) =
      (.redirect url1, [(key, ⟨url1, t0 + WebApp.RESOLVE_CACHE_TTL_MS⟩)], true) ∧
    WebApp.handleResolve [(key, ⟨url1, t0 + WebApp.RESOLVE_CACHE_TTL_MS⟩)] t1 key (some url2) =
      (.redirect url1, [(key, ⟨url1, t0 + WebApp.RESOLVE_CACHE_TTL_MS⟩)], false) ∧
    WebApp.handleResolve [(key, ⟨url1, t0 + WebApp.RESOLVE_CACHE_TTL_MS⟩)] t2 key (some url2) =
      (.redirect url2, [(key, ⟨url2, t2 + WebApp.RESOLVE_CACHE_TTL_MS⟩)], true) := by
  refine ⟨?_, ?_, ?_⟩
  · simp [WebApp.handleResolve, WebApp.prune, WebApp.lookupC, WebApp.proceedResolve,
      WebApp.setC, h1]
  · simp [WebApp.handleResolve, WebApp.prune, WebApp.lookupC, WebApp.proceedResolve,
      WebApp.setC, h1, show ¬(t0 + WebApp.RESOLVE_CACHE_TTL_MS ≤ t1) from by omega, hin]
  · simp [WebApp.handleResolve, WebApp.prune, WebApp.lookupC, WebApp.proceedResolve,
      WebApp.setC, h2, hout]

/-- C8 witness at concrete times: resolver runs once across the first two
requests and again after expiry. -/
theorem c8_witness :
    WebApp.handleResolve [] 1000 "k" (some "https://a") =
      (.redirect "https://a", [("k", ⟨"https://a", 1000 + WebApp.RESOLVE_CACHE_TTL_MS⟩)], true) ∧
    WebApp.handleResolve [("k", ⟨"https://a", 1000 + WebApp.RESOLVE_CACHE_TTL_MS⟩)] 2000 "k"
      (some "https://b") =
      (.redirect "https://a", [("k", ⟨"https://a", 1000 + WebApp.RESOLVE_CACHE_TTL_MS⟩)], false) ∧
    WebApp.handleResolve [("k", ⟨"https://a", 1000 + WebApp.RESOLVE_CACHE_TTL_MS⟩)]
      (1000 + WebApp.RESOLVE_CACHE_TTL_MS) "k" (some "https://b") =
      (.redirect "https://b",
        [("k", ⟨"https://b", 1000 + WebApp.RESOLVE_CACHE_TTL_MS + WebApp.RESOLVE_CACHE_TTL_MS⟩)],
        true) :=
  c8_resolve_cache_ttl "k" "https://a" "https://b" 1000 2000
    (1000 + WebApp.RESOLVE_CACHE_TTL_MS) (by decide) (by decide) (by decide) (by decide)

/-! ## Orchestrator helper lemmas -/

/-- The create phase only prepends to the trace. -/
theorem Torbox.tbCreatePhase_trace (env : Torbox.TbEnv) (f : Option String)
    (nc : Nat) (trace : List Torbox.TbCall) :
    (∀ c e t', Torbox.tbCreatePhase env f nc trace = .error (c, e, t') → ∃ l, t' = l ++ trace) ∧
    (∀ tid qid nc' t', Torbox.tbCreatePhase env f nc trace = .ok (tid, qid, nc', t') →
      ∃ l, t' = l ++ trace) := by
  unfold Torbox.tbCreatePhase
  constructor
  · intro c e t' h
    rcases hcr : env.createResults nc with e0 | created <;> rw [hcr] at h
    · by_cases hae : Torbox.isCreateAlreadyExistsError e0 = true
      · simp [hae] at h
      · simp only [hae] at h
        by_cases hql : Torbox.isTorboxQueueLimitError e0 = true
        · simp only [hql, if_true, Bool.false_eq_true, if_false] at h
          injection h with h
          simp only [Prod.mk.injEq] at h
          exact ⟨[.create f], by rw [← h.2.2]; rfl⟩
        · simp only [hql, Bool.false_eq_true, if_false] at h
          rcases hcr2 : env.createResults (nc + 1) with e2 | created2 <;> rw [hcr2] at h
          · by_cases hql2 : Torbox.isTorboxQueueLimitError e2 = true
            · simp only [hql2, if_true] at h
              injection h with h
              simp only [Prod.mk.injEq] at h
              exact ⟨[.create none, .create f], by rw [← h.2.2]; rfl⟩
            · simp [hql2] at h
          · simp at h
    · simp at h
  · intro tid qid nc' t' h
    rcases hcr : env.createResults nc with e0 | created <;> rw [hcr] at h
    · by_cases hae : Torbox.isCreateAlreadyExistsError e0 = true
      · simp only [hae, if_true] at h
        injection h with h
        simp only [Prod.mk.injEq] at h
        exact ⟨[.create f], by rw [← h.2.2.2]; rfl⟩
      · simp only [hae, Bool.false_eq_true, if_false] at h
        by_cases hql : Torbox.isTorboxQueueLimitError e0 = true
        · simp [hql] at h
        · simp only [hql, Bool.false_eq_true, if_false] at h
          rcases hcr2 : env.createResults (nc + 1) with e2 | created2 <;> rw [hcr2] at h
          · by_cases hql2 : Torbox.isTorboxQueueLimitError e2 = true
            · simp [hql2] at h
            · simp only [hql2, Bool.false_eq_true, if_false] at h
              injection h with h
              simp only [Prod.mk.injEq] at h
              exact ⟨[.create none, .create f], by rw [← h.2.2.2]; rfl⟩
          · injection h with h
            simp only [Prod.mk.injEq] at h
            exact ⟨[.create none, .create f], by rw [← h.2.2.2]; rfl⟩
    · injection h with h
      simp only [Prod.mk.injEq] at h
      exact ⟨[.create f], by rw [← h.2.2.2]; rfl⟩

/-- The polling loop only appends to the (reversed) trace: the calls
already recorded stay a prefix of the final chronological trace. -/
theorem Torbox.tbLoop_trace_mono :
    ∀ (iters : Nat) (env : Torbox.TbEnv) (args : Torbox.TbArgs) (th tid qid : String)
      (ca : Bool) (nc nl nk : Nat) (trace : List Torbox.TbCall),
      trace.reverse <+: (Torbox.tbLoop env args th iters tid qid ca nc nl nk trace).2 := by
  intro iters
  induction iters with
  | zero =>
    intro env args th tid qid ca nc nl nk trace
    simp [Torbox.tbLoop]
  | succ n ih =>
    intro env args th tid qid ca nc nl nk trace
    have hphase := Torbox.tbCreatePhase_trace env args.fileName nc trace
    simp only [Torbox.tbLoop]
    rcases hph : (if !args.skipCreate && !ca then Torbox.tbCreatePhase env args.fileName nc trace
        else .ok (tid, qid, nc, trace)) with ⟨c, e, t'⟩ | ⟨tid', qid', nc', t'⟩
    · have ht' : ∃ l0, t' = l0 ++ trace := by
        split at hph
        · exact hphase.1 c e t' hph
        · exact Except.noConfusion hph
      obtain ⟨l0, hl0⟩ := ht'
      dsimp only
      simp only [hl0, List.reverse_append]
      exact List.prefix_append _ _
    · have ht' : ∃ l0, t' = l0 ++ trace := by
        split at hph
        · exact hphase.2 tid' qid' nc' t' hph
        · injection hph with hph
          simp only [Prod.mk.injEq] at hph
          exact ⟨[], by rw [← hph.2.2.2]; rfl⟩
      obtain ⟨l0, hl0⟩ := ht'
      dsimp only
      have hpre : trace.reverse <+: (Torbox.TbCall.list :: t').reverse := by
        rw [hl0, List.reverse_cons, List.reverse_append, List.append_assoc]
        exact List.prefix_append _ _
      cases hfind : Torbox.findTorrentInList (env.listResults nl) th tid' with
      | none =>
        dsimp only
        exact hpre.trans (ih env args th tid' qid' _ nc' (nl + 1) nk _)
      | some chosen =>
        dsimp only
        repeat' split
        all_goals
          first
            | exact hpre.trans (ih env args th _ qid' _ nc' (nl + 1) nk _)
            | (rw [hl0]
               simp only [List.reverse_cons, List.reverse_append, List.append_assoc]
               exact List.prefix_append _ _)

/-- The polling window always admits at least one loop iteration. -/
theorem Torbox.tbIterations_pos (w : Option JsNum) :
    1 ≤ Torbox.tbIterations (Torbox.effectiveWait w).toNat := by
  have h5 : (5000 : Int) ≤ Torbox.effectiveWait w := le_max_left _ _
  have h5' : 5000 ≤ (Torbox.effectiveWait w).toNat := by omega
  unfold Torbox.tbIterations
  rw [Nat.le_div_iff_mul_le (by omega)]
  omega

/-! ## C3: a queue-limit creation error is fatal -/

/-- C3 counterexample: an error carrying the queue-limit code
`ACTIVE_LIMIT` whose message also marks it as already-exists is absorbed
(already-exists takes precedence), so the run does not reject with the
queue-limit error and performs three job-listing calls before timing
out — refuting "rejects immediately ... zero job-listing attempts" as
universally stated. -/
theorem c3_counterexample :
    Torbox.isTorboxQueueLimitError c3err = true ∧
    Torbox.resolveTorboxLinkWithWait c3env c3args =
      (.errNotReady, [.create none, .list, .list, .list]) := by
  constructor
  · decide
  · decide

/-- C3 as amended.  When job creation fails with a queue-limit error code
that is not also classified as already-exists (which takes precedence),
the orchestrator rejects immediately with that error, with no retry of
the creation and zero job-listing calls: the whole call trace is the one
create call. -/
theorem c3_amended_queue_limit_fatal
    (env : Torbox.TbEnv) (args : Torbox.TbArgs) (e : Torbox.TorboxError)
    (hkey : args.apiKey ≠ "") (hhash : Torbox.effTargetHash args ≠ "")
    (hmag : args.magnet ≠ "") (hsc : args.skipCreate = false)
    (hcr : env.createResults 0 = .error e)
    (hql : Torbox.isTorboxQueueLimitError e = true)
    (hae : Torbox.isCreateAlreadyExistsError e = false) :
    Torbox.resolveTorboxLinkWithWait env args =
      (.errQueueLimit (Torbox.qlCode e) e, [.create args.fileName]) := by
  unfold Torbox.resolveTorboxLinkWithWait
  rw [if_neg hkey, if_neg hhash, if_neg hmag]
  obtain ⟨k, hk⟩ : ∃ k, Torbox.tbIterations (Torbox.effectiveWait args.maxWaitMs).toNat = k + 1 := by
    have := Torbox.tbIterations_pos args.maxWaitMs
    exact ⟨Torbox.tbIterations (Torbox.effectiveWait args.maxWaitMs).toNat - 1, by omega⟩
  rw [hk]
  simp only [Torbox.tbLoop, hsc, Bool.not_false, Bool.and_self, if_true]
  unfold Torbox.tbCreatePhase
  rw [hcr]
  simp only [hae, Bool.false_eq_true, if_false, hql, if_true]
  rfl

/-- C3 witness: the amended theorem at a concrete queue-limit-only
environment. -/
theorem c3_witness :
    Torbox.resolveTorboxLinkWithWait
      { createResults := fun _ => .error c6errB, listResults := fun _ => [],
        linkResults := fun _ => "" }
      c3args = (.errQueueLimit "ACTIVE_LIMIT" c6errB, [.create none]) :=
  c3_amended_queue_limit_fatal _ c3args c6errB (by decide) (by decide) (by decide)
    (by decide) rfl (by decide) (by decide)

/-- After a non-throwing create phase, the next remote call of the
iteration is the job listing: the trace so far plus that listing call is
a prefix of the final chronological trace. -/
theorem Torbox.tbLoop_succ_phase_ok
    (env : Torbox.TbEnv) (args : Torbox.TbArgs) (th tid qid : String) (ca : Bool)
    (n nc nl nk : Nat) (trace : List Torbox.TbCall)
    (tid' qid' : String) (nc' : Nat) (t' : List Torbox.TbCall)
    (hph : (if !args.skipCreate && !ca then Torbox.tbCreatePhase env args.fileName nc trace
        else .ok (tid, qid, nc, trace)) = .ok (tid', qid', nc', t')) :
    (Torbox.TbCall.list :: t').reverse <+:
      (Torbox.tbLoop env args th (n + 1) tid qid ca nc nl nk trace).2 := by
  simp only [Torbox.tbLoop]
  rw [hph]
  dsimp only
  cases hfind : Torbox.findTorrentInList (env.listResults nl) th tid' with
  | none =>
    dsimp only
    exact Torbox.tbLoop_trace_mono n env args th tid' qid' _ nc' (nl + 1) nk _
  | some chosen =>
    dsimp only
    repeat' split
    all_goals
      first
        | exact Torbox.tbLoop_trace_mono n env args th _ qid' _ nc' (nl + 1) nk _
        | exact List.prefix_rfl
        | (dsimp only
           simp only [List.reverse_cons, List.append_assoc]
           first
             | exact List.prefix_rfl
             | exact List.prefix_append _ _
             | exact (by rw [← List.append_assoc]; exact List.prefix_append _ _))

/-! ## C6: creation-error absorption and single retry -/

/-- C6 counterexample: the first create fails generically and the single
retry fails with `ACTIVE_LIMIT`; the run rejects with the queue-limit
error after the two create calls and performs no job listing, refuting
"proceeds to polling regardless of whether that single retry succeeded or
failed". -/
theorem c6_counterexample :
    Torbox.isCreateAlreadyExistsError c6errA = false ∧
    Torbox.isTorboxQueueLimitError c6errA = false ∧
    Torbox.resolveTorboxLinkWithWait c6env c6args =
      (.errQueueLimit "ACTIVE_LIMIT" c6errB, [.create (some "Show.mkv"), .create none]) := by
  refine ⟨by decide, by decide, by decide⟩

/-- C6 as amended.  An already-exists creation error is absorbed and the
run proceeds to the job listing; any other non-queue-limit creation error
triggers exactly one retry with the display name omitted, after which the
run proceeds to the listing whether the retry succeeded or failed with a
non-queue-limit error; but a retry failing with a queue-limit error is
surfaced immediately, without polling. -/
theorem c6_amended_creation_retry
    (env : Torbox.TbEnv) (args : Torbox.TbArgs) (e : Torbox.TorboxError)
    (hkey : args.apiKey ≠ "") (hhash : Torbox.effTargetHash args ≠ "")
    (hmag : args.magnet ≠ "") (hsc : args.skipCreate = false)
    (hcr : env.createResults 0 = .error e) :
    (Torbox.isCreateAlreadyExistsError e = true →
      ∃ rest, (Torbox.resolveTorboxLinkWithWait env args).2 =
        .create args.fileName :: .list :: rest) ∧
    (Torbox.isCreateAlreadyExistsError e = false →
      Torbox.isTorboxQueueLimitError e = false →
      ((∃ r, env.createResults 1 = .ok r) ∨
       (∃ e2, env.createResults 1 = .error e2 ∧ Torbox.isTorboxQueueLimitError e2 = false) →
        ∃ rest, (Torbox.resolveTorboxLinkWithWait env args).2 =
          .create args.fileName :: .create none :: .list :: rest) ∧
      (∀ e2, env.createResults 1 = .error e2 → Torbox.isTorboxQueueLimitError e2 = true →
        Torbox.resolveTorboxLinkWithWait env args =
          (.errQueueLimit (Torbox.qlCode e2) e2, [.create args.fileName, .create none]))) := by
  have hunfold : Torbox.resolveTorboxLinkWithWait env args =
      Torbox.tbLoop env args (Torbox.effTargetHash args)
        (Torbox.tbIterations (Torbox.effectiveWait args.maxWaitMs).toNat) "" "" false 0 0 0 [] := by
    unfold Torbox.resolveTorboxLinkWithWait
    rw [if_neg hkey, if_neg hhash, if_neg hmag]
  obtain ⟨k, hk⟩ : ∃ k, Torbox.tbIterations (Torbox.effectiveWait args.maxWaitMs).toNat = k + 1 := by
    have := Torbox.tbIterations_pos args.maxWaitMs
    exact ⟨Torbox.tbIterations (Torbox.effectiveWait args.maxWaitMs).toNat - 1, by omega⟩
  rw [hk] at hunfold
  constructor
  · intro hae
    have hph : (if !args.skipCreate && !false then Torbox.tbCreatePhase env args.fileName 0 []
        else .ok ("", "", 0, [])) = .ok ("", "", 1, [.create args.fileName]) := by
      rw [hsc]
      simp only [Bool.not_false, Bool.and_self, if_true]
      unfold Torbox.tbCreatePhase
      rw [hcr]
      simp [hae]
    have hpre := Torbox.tbLoop_succ_phase_ok env args (Torbox.effTargetHash args) "" "" false
      k 0 0 0 [] "" "" 1 [.create args.fileName] hph
    obtain ⟨rest, hrest⟩ := hpre
    refine ⟨rest, ?_⟩
    rw [hunfold, ← hrest]
    rfl
  · intro hae hql
    constructor
    · intro hretry
      have hph : (if !args.skipCreate && !false then Torbox.tbCreatePhase env args.fileName 0 []
          else .ok ("", "", 0, [])) = .ok
            (match env.createResults 1 with
             | .ok r => Torbox.createdTorrentId r
             | .error _ => "",
             match env.createResults 1 with
             | .ok r => Torbox.pickQueuedId r
             | .error _ => "",
             2, [.create none, .create args.fileName]) := by
        rw [hsc]
        simp only [Bool.not_false, Bool.and_self, if_true]
        unfold Torbox.tbCreatePhase
        rw [hcr]
        simp only [hae, Bool.false_eq_true, if_false, hql]
        rcases hretry with ⟨r, hr⟩ | ⟨e2, hr, hql2⟩
        · rw [hr]
        · rw [hr]
          simp [hql2]
      have hpre := Torbox.tbLoop_succ_phase_ok env args (Torbox.effTargetHash args) "" "" false
        k 0 0 0 [] _ _ 2 [.create none, .create args.fileName] hph
      obtain ⟨rest, hrest⟩ := hpre
      refine ⟨rest, ?_⟩
      rw [hunfold, ← hrest]
      rfl
    · intro e2 hr2 hql2
      rw [hunfold]
      simp only [Torbox.tbLoop, hsc, Bool.not_false, Bool.and_self, if_true]
      unfold Torbox.tbCreatePhase
      rw [hcr]
      simp only [hae, Bool.false_eq_true, if_false, hql, hr2, hql2, if_true]
      rfl

/-- C6 witness: the absorbed already-exists error proceeds to a listing;
the queue-limit retry failure is surfaced with no listing. -/
theorem c6_witness :
    (∃ rest, (Torbox.resolveTorboxLinkWithWait c3env c3args).2 =
      .create none :: .list :: rest) ∧
    Torbox.resolveTorboxLinkWithWait c6env c6args =
      (.errQueueLimit "ACTIVE_LIMIT" c6errB, [.create (some "Show.mkv"), .create none]) := by
  constructor
  · exact (c6_amended_creation_retry c3env c3args c3err (by decide) (by decide) (by decide)
      (by decide) rfl).1 (by decide)
  · exact ((c6_amended_creation_retry c6env c6args c6errA (by decide) (by decide) (by decide)
      (by decide) rfl).2 (by decide) (by decide)).2 c6errB rfl (by decide)

/-! ## C7: download errors versus timeouts -/

/-- C7 counterexample: a job row in a terminal error state that still has
a selectable video file and torrent id makes the run succeed with a
download link instead of rejecting with a download error — the claim
needs the "no file selected" qualification. -/
theorem c7_counterexample :
    Torbox.statusError c7item = true ∧
    Torbox.resolveTorboxLinkWithWait c7env c7args =
      (.ok "https://u", [.list, .link "5" "1"]) := by
  exact ⟨by decide, by decide⟩

/-- C7 as amended.  When the deadline has elapsed the loop rejects with
the `NotReady` outcome; when the located job reports a terminal failure
(explicit error state, or not active and not finished) and no download
link is requested for it (no torrent id / file id selected), the loop
rejects immediately with the `Download` outcome, performing no further
listing; and the two rejection codes are distinct, so the outcomes are
never conflated. -/
theorem c7_amended_failure_outcomes :
    (∀ (env : Torbox.TbEnv) (args : Torbox.TbArgs) (th tid qid : String) (ca : Bool)
       (nc nl nk : Nat) (tr : List Torbox.TbCall),
      Torbox.tbLoop env args th 0 tid qid ca nc nl nk tr = (.errNotReady, tr.reverse)) ∧
    (∀ (env : Torbox.TbEnv) (args : Torbox.TbArgs) (th tid qid : String) (ca : Bool)
       (n nc nl nk : Nat) (tr : List Torbox.TbCall) (chosen : Torbox.Item),
      (!args.skipCreate && !ca) = false →
      Torbox.findTorrentInList (env.listResults nl) th tid = some chosen →
      Torbox.statusError chosen = true →
      (decide ((if tid ≠ "" then tid else Torbox.pickTorrentId chosen) ≠ "") &&
        decide (Torbox.chooseFileIdFromTorrent chosen args.fileName args.season args.episode ≠ ""))
        = false →
      Torbox.tbLoop env args th (n + 1) tid qid ca nc nl nk tr =
        (.errDownload, (Torbox.TbCall.list :: tr).reverse)) ∧
    Torbox.TbOutcome.code .errDownload ≠ Torbox.TbOutcome.code .errNotReady := by
  refine ⟨?_, ?_, by decide⟩
  · intro env args th tid qid ca nc nl nk tr
    rfl
  · intro env args th tid qid ca n nc nl nk tr chosen hphase hfind hse hc
    simp only [Torbox.tbLoop, hphase, Bool.false_eq_true, if_false]
    rw [hfind]
    dsimp only
    rw [if_neg (by rw [hc]; exact Bool.false_ne_true), if_pos hse]

/-- C7 witness: the amended theorem at a concrete errored job row with no
selectable file, and at an elapsed deadline. -/
theorem c7_witness :
    Torbox.tbLoop c7wEnv c7args "a" 1 "" "" true 0 0 0 [] = (.errDownload, [.list]) ∧
    Torbox.tbLoop c7wEnv c7args "a" 0 "" "" true 0 0 0 [] = (.errNotReady, []) :=
  ⟨c7_amended_failure_outcomes.2.1 c7wEnv c7args "a" "" "" true 0 0 0 0 [] c7bad
      (by decide) (by decide) (by decide) (by decide),
   c7_amended_failure_outcomes.1 c7wEnv c7args "a" "" "" true 0 0 0 []⟩

/-! ## Bencode bounds and fuel lemmas -/

theorem Ncore.byteAt_lt (buf : List Nat) (i c : Nat) (h : Ncore.byteAt buf i = some c) :
    i < buf.length := by
  unfold Ncore.byteAt at h
  exact List.get?_eq_some.mp h |>.1

theorem Ncore.scanDigitsGo_ge : ∀ (l : List Nat) (i : Nat), i ≤ Ncore.scanDigitsGo l i := by
  intro l
  induction l with
  | nil => intro i; simp [Ncore.scanDigitsGo]
  | cons b rest ih =>
    intro i
    unfold Ncore.scanDigitsGo
    split
    · exact le_trans (Nat.le_succ i) (ih (i + 1))
    · exact le_rfl

theorem Ncore.scanDigitsEnd_ge (buf : List Nat) (i : Nat) : i ≤ Ncore.scanDigitsEnd buf i :=
  Ncore.scanDigitsGo_ge _ i

theorem Ncore.readByteString_bounds (buf : List Nat) (off : Nat) (v : List Nat) (nx : Nat)
    (h : Ncore.readByteString buf off = .ok (v, nx)) :
    off < nx ∧ nx ≤ buf.length := by
  simp only [Ncore.readByteString] at h
  split at h
  · exact Except.noConfusion h
  · rename_i hguard
    split at h
    · exact Except.noConfusion h
    · rename_i hstop
      injection h with h
      simp only [Prod.mk.injEq] at h
      obtain ⟨-, hnx⟩ := h
      simp only [Bool.or_eq_true, decide_eq_true_eq, not_or, not_not] at hguard
      obtain ⟨hne, hcolon⟩ := hguard
      have hge := Ncore.scanDigitsEnd_ge buf off
      have hlt : Ncore.scanDigitsEnd buf off < buf.length :=
        Ncore.byteAt_lt _ _ _ hcolon
      omega

theorem Ncore.idxOfGo_spec :
    ∀ (l : List Nat) (t idx e : Nat), Ncore.idxOfGo t l idx = some e →
      idx ≤ e ∧ e - idx < l.length := by
  intro l
  induction l with
  | nil => intro t idx e h; simp [Ncore.idxOfGo] at h
  | cons b rest ih =>
    intro t idx e h
    unfold Ncore.idxOfGo at h
    split at h
    · injection h with h
      subst h
      simp
    · obtain ⟨h1, h2⟩ := ih t (idx + 1) e h
      constructor
      · omega
      · simp only [List.length_cons]
        omega

theorem Ncore.idxOfFrom_spec (buf : List Nat) (t start e : Nat)
    (h : Ncore.idxOfFrom buf t start = some e) :
    start ≤ e ∧ e < buf.length := by
  unfold Ncore.idxOfFrom at h
  obtain ⟨h1, h2⟩ := Ncore.idxOfGo_spec _ t start e h
  rw [List.length_drop] at h2
  omega

/-- Successful parses advance the offset and stay inside the buffer. -/
theorem Ncore.parse_bounds :
    ∀ (fuel : Nat) (buf : List Nat),
      (∀ off v nx, Ncore.parseB fuel buf off = .ok (v, nx) → off < nx ∧ nx ≤ buf.length) ∧
      (∀ cur acc v nx, Ncore.parseListB fuel buf cur acc = .ok (v, nx) →
        cur < nx ∧ nx ≤ buf.length) ∧
      (∀ cur acc v nx, Ncore.parseDictB fuel buf cur acc = .ok (v, nx) →
        cur < nx ∧ nx ≤ buf.length) := by
  intro fuel
  induction fuel with
  | zero =>
    intro buf
    refine ⟨?_, ?_, ?_⟩
    · intro off v nx h; exact Except.noConfusion h
    · intro cur acc v nx h; exact Except.noConfusion h
    · intro cur acc v nx h; exact Except.noConfusion h
  | succ fuel ih =>
    intro buf
    obtain ⟨ihP, ihL, ihD⟩ := ih buf
    refine ⟨?_, ?_, ?_⟩
    · intro off v nx h
      simp only [Ncore.parseB] at h
      split at h
      · exact Except.noConfusion h
      · rename_i c hb
        split at h
        · -- integer
          split at h
          · exact Except.noConfusion h
          · rename_i e hidx
            injection h with h
            simp only [Prod.mk.injEq] at h
            obtain ⟨he, hs⟩ := Ncore.idxOfFrom_spec buf 0x65 (off + 1) e hidx
            omega
        · split at h
          · -- list
            have := ihL (off + 1) [] v nx h
            omega
          · split at h
            · -- dictionary
              have := ihD (off + 1) [] v nx h
              omega
            · split at h
              · -- byte string
                split at h
                · exact Except.noConfusion h
                · rename_i sv sn hrb
                  injection h with h
                  simp only [Prod.mk.injEq] at h
                  obtain ⟨h1, h2⟩ := Ncore.readByteString_bounds buf off sv sn hrb
                  omega
              · exact Except.noConfusion h
    · intro cur acc v nx h
      simp only [Ncore.parseListB] at h
      split at h
      · exact Except.noConfusion h
      · rename_i c hb
        have hcur := Ncore.byteAt_lt buf cur c hb
        split at h
        · injection h with h
          simp only [Prod.mk.injEq] at h
          omega
        · split at h
          · exact Except.noConfusion h
          · rename_i v0 n1 hP
            have h1 := ihP cur v0 n1 hP
            have h2 := ihL n1 (v0 :: acc) v nx h
            omega
    · intro cur acc v nx h
      simp only [Ncore.parseDictB] at h
      split at h
      · exact Except.noConfusion h
      · rename_i c hb
        have hcur := Ncore.byteAt_lt buf cur c hb
        split at h
        · injection h with h
          simp only [Prod.mk.injEq] at h
          omega
        · split at h
          · exact Except.noConfusion h
          · rename_i kv kn hkp
            have h1 := Ncore.readByteString_bounds buf cur kv kn hkp
            split at h
            · exact Except.noConfusion h
            · rename_i v0 n1 hvp
              have h2 := ihP kn v0 n1 hvp
              have h3 := ihD n1 ((kv, v0) :: acc) v nx h
              omega

theorem Ncore.readByteString_err (buf : List Nat) (off : Nat) (e : Ncore.JsError)
    (h : Ncore.readByteString buf off = .error e) : e ≠ .outOfFuel := by
  simp only [Ncore.readByteString] at h
  split at h
  · injection h with h
    rw [← h]
    exact fun hc => Ncore.JsError.noConfusion hc
  · split at h
    · injection h with h
      rw [← h]
      exact fun hc => Ncore.JsError.noConfusion hc
    · exact Except.noConfusion h

/-- The fuel supplied by `parseBencodeValue` never runs out: every failure
is a thrown decoding error. -/
theorem Ncore.parse_fuel :
    ∀ (fuel : Nat) (buf : List Nat),
      (∀ off, 2 * (buf.length - off) + 1 ≤ fuel →
        Ncore.parseB fuel buf off ≠ .error .outOfFuel) ∧
      (∀ cur acc, 2 * (buf.length - cur) + 2 ≤ fuel →
        Ncore.parseListB fuel buf cur acc ≠ .error .outOfFuel) ∧
      (∀ cur acc, 2 * (buf.length - cur) + 2 ≤ fuel →
        Ncore.parseDictB fuel buf cur acc ≠ .error .outOfFuel) := by
  intro fuel
  induction fuel with
  | zero =>
    intro buf
    refine ⟨?_, ?_, ?_⟩
    · intro off hle; omega
    · intro cur acc hle; omega
    · intro cur acc hle; omega
  | succ fuel ih =>
    intro buf
    obtain ⟨ihP, ihL, ihD⟩ := ih buf
    refine ⟨?_, ?_, ?_⟩
    · intro off hle h
      simp only [Ncore.parseB] at h
      split at h
      · injection h with h; exact Ncore.JsError.noConfusion h
      · rename_i c hb
        have hoff := Ncore.byteAt_lt buf off c hb
        split at h
        · split at h
          · injection h with h; exact Ncore.JsError.noConfusion h
          · exact Except.noConfusion h
        · split at h
          · exact ihL (off + 1) [] (by omega) h
          · split at h
            · exact ihD (off + 1) [] (by omega) h
            · split at h
              · split at h
                · rename_i e' hrb
                  injection h with h
                  exact Ncore.readByteString_err buf off e' hrb (by rw [h])
                · exact Except.noConfusion h
              · injection h with h; exact Ncore.JsError.noConfusion h
    · intro cur acc hle h
      simp only [Ncore.parseListB] at h
      split at h
      · injection h with h; exact Ncore.JsError.noConfusion h
      · rename_i c hb
        have hcur := Ncore.byteAt_lt buf cur c hb
        split at h
        · exact Except.noConfusion h
        · split at h
          · rename_i e' hP
            injection h with h
            rw [h] at hP
            exact ihP cur (by omega) hP
          · rename_i v0 n1 hP
            have hb1 := (Ncore.parse_bounds fuel buf).1 cur v0 n1 hP
            exact ihL n1 (v0 :: acc) (by omega) h
    · intro cur acc hle h
      simp only [Ncore.parseDictB] at h
      split at h
      · injection h with h; exact Ncore.JsError.noConfusion h
      · rename_i c hb
        have hcur := Ncore.byteAt_lt buf cur c hb
        split at h
        · exact Except.noConfusion h
        · split at h
          · rename_i e' hkp
            injection h with h
            exact Ncore.readByteString_err buf cur e' hkp (by rw [h])
          · rename_i kv kn hkp
            have hb0 := Ncore.readByteString_bounds buf cur kv kn hkp
            split at h
            · rename_i e' hvp
              injection h with h
              rw [h] at hvp
              exact ihP kn (by omega) hvp
            · rename_i v0 n1 hvp
              have hb1 := (Ncore.parse_bounds fuel buf).1 kn v0 n1 hvp
              exact ihD n1 ((kv, v0) :: acc) (by omega) h

/-- `parseBencodeValue` never exhausts its fuel. -/
theorem Ncore.parseBencodeValue_no_fuel (buf : List Nat) (off : Nat) :
    Ncore.parseBencodeValue buf off ≠ .error .outOfFuel := by
  unfold Ncore.parseBencodeValue
  exact (Ncore.parse_fuel (Ncore.bencodeFuel buf) buf).1 off (by
    unfold Ncore.bencodeFuel
    omega)

/-! ## C5: bencode decoding is safe -/

/-- C5.  Bencode decoding either succeeds — consuming only bytes inside
the buffer, the resulting offset past the consumed region and within
bounds — or fails with a thrown `InvalidEncoding`-class error (never a
crash or fuel exhaustion); successful byte-string reads stay in bounds;
and decoding fails on a non-digit length prefix, a declared length
exceeding the remaining buffer, a missing integer or list terminator,
and an unrecognized leading byte. -/
theorem c5_bencode_decode_safe :
    (∀ (buf : List Nat) (off : Nat),
      (∃ v nx, Ncore.parseBencodeValue buf off = .ok (v, nx) ∧ off < nx ∧ nx ≤ buf.length) ∨
      (∃ msg, Ncore.parseBencodeValue buf off = .error (.thrown msg))) ∧
    (∀ (buf : List Nat) (off : Nat) (v : List Nat) (nx : Nat),
      Ncore.readByteString buf off = .ok (v, nx) → off < nx ∧ nx ≤ buf.length) ∧
    Ncore.parseBencodeValue (asciiStr "dxe") 0 = .error (.thrown "invalid bencode byte string") ∧
    Ncore.parseBencodeValue (asciiStr "5:ab") 0 =
      .error (.thrown "invalid bencode byte string length") ∧
    Ncore.parseBencodeValue (asciiStr "i42") 0 = .error (.thrown "invalid bencode integer") ∧
    Ncore.parseBencodeValue (asciiStr "l1:a") 0 = .error (.thrown "invalid bencode list") ∧
    Ncore.parseBencodeValue (asciiStr "x") 0 = .error (.thrown "invalid bencode token") := by
  refine ⟨?_, Ncore.readByteString_bounds, rfl, rfl, rfl, rfl, rfl⟩
  intro buf off
  rcases hp : Ncore.parseBencodeValue buf off with e | ⟨v, nx⟩
  · cases e with
    | thrown msg => exact Or.inr ⟨msg, rfl⟩
    | outOfFuel => exact absurd hp (Ncore.parseBencodeValue_no_fuel buf off)
  · obtain ⟨hlt, hle⟩ := (Ncore.parse_bounds (Ncore.bencodeFuel buf) buf).1 off v nx hp
    exact Or.inl ⟨v, nx, rfl, hlt, hle⟩

/-- C5 witness: a concrete successful byte-string read, in bounds. -/
theorem c5_witness :
    0 < 6 ∧ 6 ≤ (asciiStr "4:spam").length :=
  c5_bencode_decode_safe.2.1 (asciiStr "4:spam") 0 (asciiStr "spam") 6 rfl

/-! ## C4: the infoHash is the hash of the raw info byte range -/

/-- C4.  For every hash function and every buffer the extractor accepts,
the reported `infoHash` is exactly the hash of the raw byte slice of the
`info` dictionary (`infoRaw`), not of any re-serialized value; hence two
buffers with byte-identical `info` ranges yield identical hashes
regardless of their other keys (e.g. `announce`). -/
theorem c4_infohash_of_raw_info_bytes :
    (∀ (sha1Hex : List Nat → String) (buf : List Nat) (m : Ncore.TorrentMeta),
      Ncore.parseTorrentMeta sha1Hex buf = .ok m → m.infoHash = sha1Hex m.infoRaw) ∧
    (∀ (sha1Hex : List Nat → String) (b1 b2 : List Nat) (m1 m2 : Ncore.TorrentMeta),
      Ncore.parseTorrentMeta sha1Hex b1 = .ok m1 →
      Ncore.parseTorrentMeta sha1Hex b2 = .ok m2 →
      m1.infoRaw = m2.infoRaw → m1.infoHash = m2.infoHash) := by
  have main : ∀ (sha1Hex : List Nat → String) (buf : List Nat) (m : Ncore.TorrentMeta),
      Ncore.parseTorrentMeta sha1Hex buf = .ok m → m.infoHash = sha1Hex m.infoRaw := by
    intro sha1Hex buf m h
    simp only [Ncore.parseTorrentMeta] at h
    split at h
    · exact Except.noConfusion h
    · split at h
      · exact Except.noConfusion h
      · rename_i acc hwalk
        split at h
        · exact Except.noConfusion h
        · split at h
          · exact Except.noConfusion h
          · rename_i info n2 hinfo
            injection h with h
            rw [← h]
  refine ⟨main, ?_⟩
  intro sha1Hex b1 b2 m1 m2 h1 h2 hraw
  rw [main sha1Hex b1 m1 h1, main sha1Hex b2 m2 h2, hraw]

/-- C4 witness: two concrete torrents differing only in their `announce`
value parse successfully, have identical raw `info` ranges, and the
theorem yields identical info hashes. -/
theorem c4_witness :
    Ncore.parseTorrentMeta shaDemo c4buf1 = .ok c4meta1 ∧
    Ncore.parseTorrentMeta shaDemo c4buf2 = .ok c4meta2 ∧
    c4meta1.trackers ≠ c4meta2.trackers ∧
    c4meta1.infoHash = c4meta2.infoHash :=
  ⟨by decide, by decide, by decide,
   c4_infohash_of_raw_info_bytes.2 shaDemo c4buf1 c4buf2 c4meta1 c4meta2
     (by decide) (by decide) (by decide)⟩
